import Mathlib

/-!
Task lifecycle and timer accounting (`src/contexts/TaskContext.js`).

A shallow embedding of the task context of the scheduler: the task store, the
timer handles, the live `setInterval` callbacks, and the operations
`addTask`, `updateTask`, `deleteTask`, `startTimer`, the periodic tick,
`stopTimer`, `completeTask`, `getTasksByUser`, `getTaskStats` and
`getTimeRemaining`, with the sequences of operations that reach a state, the
load effect of the provider, and the duplicate check of `signup`
(`src/contexts/AuthContext.js`) and `handleAddEmployee`
(`src/components/AdminPanel.js`).

Modelling conventions.

* A JavaScript object is a list of `(key, value)` entries read like an object
  literal: when a key occurs twice the last entry wins.
* Numbers are integers (milliseconds and seconds); `Math.floor (x / 1000)` is
  integer division, which rounds towards minus infinity for the positive
  divisor `1000`.
* The clock is explicit: every operation that reads `Date.now ()` or
  `new Date ()` takes the reading `now` (milliseconds) as an argument, and the
  rendering `new Date ().toISOString ()` is the parameter `iso`.
* React state: an operation invoked from a render reads the snapshot
  (`tasks`, `activeTimers`) of that render; each `setTasks (prev => ...)` and
  `setActiveTimers (prev => ...)` is an updater applied, in call order, to the
  pending state. An operation called on its own has snapshot and pending state
  equal; inside `deleteTask` and `completeTask` the nested `stopTimer` reads
  the snapshot while its updaters act on the pending state.
* Dates: `new Date (v)` is its time value in milliseconds, absent for an
  invalid date; the parsing of date strings is the parameter `parseDate`.
* `JSON.parse` is the parameter `jsonParse` of the load effect.
* `activeTimers` is a plain object, so the read `activeTimers[taskId]` also
  finds the members every object inherits from `Object.prototype`
  (`toString`, `constructor`, ...). `stopTimerIn`, `deleteTask` and
  `completeTask` read the own entries, which is the whole lookup for every
  key outside `protoKeys`; `readTimer` and `stopTimerFull` model the lookup
  with the inherited members, and `stopTimerFull_eq_stopTimer` relates the two.
-/

namespace TaskScheduler

/-- JavaScript values stored in task records. -/
inductive Val
  | undefined
  | null
  | bool (b : Bool)
  | num (n : Int)
  | str (s : String)
  deriving DecidableEq, Repr

/-- A JavaScript object: entries in literal order, the last entry of a key wins. -/
abbrev Obj := List (String × Val)

/-- Own property lookup: `none` when the key is not a property of the object. -/
def getProp {β : Type} : List (String × β) → String → Option β
  | [], _ => none
  | (k0, v0) :: o, k => (getProp o k).or (if k0 = k then some v0 else none)

/-- Property read `o.k`: `undefined` when the property is missing. -/
def readProp (o : Obj) (k : String) : Val :=
  (getProp o k).getD Val.undefined

/-- Property write in a copy, `{ ...o, [k]: v }`: an existing key keeps its
place and takes the new value, a new key goes to the end. -/
def setProp {β : Type} (o : List (String × β)) (k : String) (v : β) : List (String × β) :=
  if o.any (fun e => decide (e.1 = k)) then
    o.map (fun e => if e.1 = k then (k, v) else e)
  else
    o ++ [(k, v)]

/-- Object spread `{ ...a, ...b }`: the entries of `b` are written over `a` in order. -/
def spread (a b : Obj) : Obj :=
  b.foldl (fun acc e => setProp acc e.1 e.2) a

/-- Property removal in a copy: `delete o[k]`. -/
def deleteProp {β : Type} (o : List (String × β)) (k : String) : List (String × β) :=
  o.filter (fun e => decide (e.1 ≠ k))

/-- JavaScript truthiness. -/
def truthy : Val → Bool
  | Val.undefined => false
  | Val.null => false
  | Val.bool b => b
  | Val.num n => decide (n ≠ 0)
  | Val.str s => decide (s ≠ "")

/-- The expression `a || b`. -/
def orElse (a b : Val) : Val :=
  if truthy a then a else b

/-- The expression `(v || 0) + elapsed` for an integer `elapsed`: numeric
addition on numbers and `true`, string concatenation on a non-empty string. -/
def addElapsed (v : Val) (elapsed : Int) : Val :=
  match v with
  | Val.num n => Val.num (n + elapsed)
  | Val.bool true => Val.num (1 + elapsed)
  | Val.str s => if s = "" then Val.num elapsed else Val.str (s ++ toString elapsed)
  | _ => Val.num elapsed

/-- Property key of a value used as a computed key, `o[v]`. -/
def toKey : Val → String
  | Val.undefined => "undefined"
  | Val.null => "null"
  | Val.bool b => if b then "true" else "false"
  | Val.num n => toString n
  | Val.str s => s

/-- Entry of `activeTimers`: `{ interval, startTime }`. -/
structure Timer where
  interval : Nat
  startTime : Int
  deriving DecidableEq, Repr

/-- A live `setInterval` callback of `startTimer`: its handle and the
`taskId` and `startTime` its closure captured. -/
structure Interval where
  handle : Nat
  taskId : Val
  startTime : Int
  deriving DecidableEq, Repr

/-- State of the task provider: the two React states, the live interval
callbacks and the next handle `setInterval` will return. -/
structure State where
  tasks : List Obj
  activeTimers : List (String × Timer)
  intervals : List Interval
  nextInterval : Nat
  deriving DecidableEq, Repr

/-- Initial state: `useState ([])`, `useState ({})`, no interval. -/
def State.init : State :=
  { tasks := [], activeTimers := [], intervals := [], nextInterval := 0 }

/-- The predicate `t => t.id === taskId`. -/
def hasId (taskId : Val) (t : Obj) : Bool :=
  decide (readProp t "id" = taskId)

/-- The object literal built by `addTask`. -/
def newTask (iso : Int → String) (uuid : String) (taskData : Obj) (now : Int) : Obj :=
  setProp (setProp (setProp (setProp (setProp
    (spread [("id", Val.str uuid)] taskData)
    "status" (Val.str "pending"))
    "timeSpent" (Val.num 0))
    "createdAt" (Val.str (iso now)))
    "startedAt" Val.null)
    "completedAt" Val.null

/-- The operation `addTask (taskData)`: it returns the new task and appends it
to the store through `setTasks (prev => [...prev, newTask])`. -/
def addTask (iso : Int → String) (s : State) (uuid : String) (taskData : Obj) (now : Int) :
    Obj × State :=
  (newTask iso uuid taskData now,
   { s with tasks := s.tasks ++ [newTask iso uuid taskData now] })

/-- The operation `updateTask (taskId, updates)`: the updater
`prev.map (task => task.id === taskId ? { ...task, ...updates } : task)`. -/
def updateTask (s : State) (taskId : Val) (updates : Obj) : State :=
  { s with tasks := s.tasks.map (fun task =>
      if hasId taskId task then spread task updates else task) }

/-- The operation `stopTimer (taskId)` run from a handler whose render snapshot is `snap`
while the pending state is `cur`, with `activeTimers[taskId]` read through the
own entries of `activeTimers`: this is the source's lookup whenever the key of
`taskId` is not the name of a member of `Object.prototype`; for those names
see `stopTimerFullIn`. -/
def stopTimerIn (snap cur : State) (taskId : Val) (now : Int) : State :=
  match getProp snap.activeTimers (toKey taskId) with
  | none => cur
  | some timer =>
    let elapsed := (now - timer.startTime) / 1000
    let spent :=
      match snap.tasks.find? (hasId taskId) with
      | some t => readProp t "timeSpent"
      | none => Val.undefined
    let cur1 := updateTask cur taskId
      [("timeSpent", addElapsed spent elapsed), ("status", Val.str "paused")]
    { cur1 with
      intervals := cur1.intervals.filter (fun iv => decide (iv.handle ≠ timer.interval))
      activeTimers := deleteProp cur1.activeTimers (toKey taskId) }

/-- The operation `stopTimer (taskId)` called on its own. -/
def stopTimer (s : State) (taskId : Val) (now : Int) : State :=
  stopTimerIn s s taskId now

/-- The operation `deleteTask (taskId)`: the filter is queued first, then the
nested `stopTimer` runs when the snapshot has a handle for `taskId`. -/
def deleteTask (s : State) (taskId : Val) (now : Int) : State :=
  let cur := { s with tasks := s.tasks.filter (fun task => !hasId taskId task) }
  if (getProp s.activeTimers (toKey taskId)).isSome then
    stopTimerIn s cur taskId now
  else
    cur

/-- The operation `startTimer (taskId)`. -/
def startTimer (iso : Int → String) (s : State) (taskId : Val) (now : Int) : State :=
  match s.tasks.find? (hasId taskId) with
  | none => s
  | some task =>
    let s1 := updateTask s taskId
      [("status", Val.str "in-progress"),
       ("startedAt", orElse (readProp task "startedAt") (Val.str (iso now)))]
    { s1 with
      intervals := s1.intervals ++ [{ handle := s.nextInterval, taskId := taskId, startTime := now }]
      nextInterval := s.nextInterval + 1
      activeTimers := setProp s1.activeTimers (toKey taskId)
        { interval := s.nextInterval, startTime := now } }

/-- One firing, at clock time `now`, of the interval callback with handle `h`
(every 30 seconds while the interval is live). -/
def tick (s : State) (h : Nat) (now : Int) : State :=
  match s.intervals.find? (fun iv => decide (iv.handle = h)) with
  | none => s
  | some iv =>
    let elapsed := (now - iv.startTime) / 1000
    { s with tasks := s.tasks.map (fun task =>
        if hasId iv.taskId task then
          setProp task "timeSpent" (addElapsed (readProp task "timeSpent") elapsed)
        else task) }

/-- The operation `completeTask (taskId)`: the nested `stopTimer` when the
snapshot has a handle, then the update to `completed`. -/
def completeTask (iso : Int → String) (s : State) (taskId : Val) (now : Int) : State :=
  let cur :=
    if (getProp s.activeTimers (toKey taskId)).isSome then stopTimerIn s s taskId now else s
  updateTask cur taskId
    [("status", Val.str "completed"), ("completedAt", Val.str (iso now))]

/-- The query `getTasksByUser (userId)`. -/
def getTasksByUser (s : State) (userId : Val) : List Obj :=
  s.tasks.filter (fun task => decide (readProp task "assignedTo" = userId))

/-- The call expression `updateTask (taskId, updates)`: its value and the
state it leaves. The body has no `return`, so the value is `undefined`. -/
def callUpdateTask (s : State) (taskId : Val) (updates : Obj) : Val × State :=
  (Val.undefined, updateTask s taskId updates)

/-- The call expression `deleteTask (taskId)`: its value and the state it
leaves. The body has no `return`, so the value is `undefined`. -/
def callDeleteTask (s : State) (taskId : Val) (now : Int) : Val × State :=
  (Val.undefined, deleteTask s taskId now)

/-- The first task of the store with the given id, `tasks.find (t => t.id === taskId)`. -/
def findTask (s : State) (taskId : Val) : Option Obj :=
  s.tasks.find? (hasId taskId)

/-! ### Concrete data for runs -/

/-- A rendering of instants used in concrete runs; the general theorems hold
for every rendering `iso`. -/
def isoDemo (ms : Int) : String :=
  "T" ++ toString ms

/-- A fresh task as `addTask` leaves it. -/
def demoTask : Obj :=
  [("id", Val.str "a"), ("title", Val.str "Write report"), ("assignedTo", Val.str "u1"),
   ("status", Val.str "pending"), ("timeSpent", Val.num 0), ("createdAt", Val.str "T0"),
   ("startedAt", Val.null), ("completedAt", Val.null)]

/-- A store holding the fresh task only, no timer running. -/
def demoStore : State :=
  { tasks := [demoTask], activeTimers := [], intervals := [], nextInterval := 0 }

/-- The store after `startTimer ("a")` at 0 ms: the task is in progress and
its timer runs. -/
def demoRunning : State :=
  startTimer isoDemo demoStore (Val.str "a") 0

/-- The store after `completeTask ("a")` at 1 s: the task is completed and no
timer runs. -/
def demoDone : State :=
  completeTask isoDemo demoStore (Val.str "a") 1000

/-- The store after a first run of 300 s (`startTimer` at 0 ms, `stopTimer`
at 300 s) and a second `startTimer` at 1000 s. -/
def demoResumed : State :=
  startTimer isoDemo (stopTimer demoRunning (Val.str "a") 300000) (Val.str "a") 1000000

/-- The `timeSpent` of the first task with the given id, if there is one. -/
def timeSpentOf (s : State) (taskId : Val) : Option Val :=
  (findTask s taskId).map (fun t => readProp t "timeSpent")

/-- The `status` of the first task with the given id, if there is one. -/
def statusOf (s : State) (taskId : Val) : Option Val :=
  (findTask s taskId).map (fun t => readProp t "status")


/-! ### Statistics and projections -/

/-- Result of `getTaskStats`. -/
structure TaskStats where
  total : Nat
  pending : Nat
  inProgress : Nat
  completed : Nat
  overdue : Nat
  deriving DecidableEq, Repr

/-- Time clipping of the `Date` constructor: a number outside
±8 640 000 000 000 000 ms gives an invalid date. -/
def timeClip (n : Int) : Option Int :=
  if -8640000000000000 ≤ n ∧ n ≤ 8640000000000000 then some n else none

/-- Time value of `new Date (v)` in milliseconds, `none` for an invalid date.
A string goes through the date parser `parseDate`, which is a parameter; any
other value is converted to a number and clipped. -/
def timeValue (parseDate : String → Option Int) : Val → Option Int
  | Val.undefined => none
  | Val.null => timeClip 0
  | Val.bool b => timeClip (if b then 1 else 0)
  | Val.num n => timeClip n
  | Val.str s => parseDate s

/-- The comparison `new Date (v) < new Date ()` at clock time `now`; it is
false for an invalid date. -/
def dateBefore (parseDate : String → Option Int) (v : Val) (now : Int) : Bool :=
  match timeValue parseDate v with
  | some d => decide (d < now)
  | none => false

/-- The predicate `t => t.status !== 'completed' && new Date (t.deadline) < new Date ()`. -/
def isOverdue (parseDate : String → Option Int) (now : Int) (t : Obj) : Bool :=
  decide (readProp t "status" ≠ Val.str "completed") &&
    dateBefore parseDate (readProp t "deadline") now

/-- The query `getTaskStats (userId)` at clock time `now`. -/
def getTaskStats (parseDate : String → Option Int) (s : State) (userId : Val) (now : Int) :
    TaskStats :=
  let userTasks := getTasksByUser s userId
  { total := userTasks.length
    pending := (userTasks.filter (fun t => decide (readProp t "status" = Val.str "pending"))).length
    inProgress :=
      (userTasks.filter (fun t => decide (readProp t "status" = Val.str "in-progress"))).length
    completed :=
      (userTasks.filter (fun t => decide (readProp t "status" = Val.str "completed"))).length
    overdue := (userTasks.filter (isOverdue parseDate now)).length }

/-- The query `getTimeRemaining (deadline)` at clock time `now`. With an invalid
deadline `diff` is `NaN`, every comparison is false and the last template
renders `NaN`. The remainder `%` truncates like the JavaScript operator. -/
def getTimeRemaining (parseDate : String → Option Int) (deadline : Val) (now : Int) : String :=
  match timeValue parseDate deadline with
  | none => "NaNm remaining"
  | some d =>
    let diff := d - now
    if diff ≤ 0 then "Overdue"
    else
      let days := diff / (1000 * 60 * 60 * 24)
      let hours := (Int.tmod diff (1000 * 60 * 60 * 24)) / (1000 * 60 * 60)
      let minutes := (Int.tmod diff (1000 * 60 * 60)) / (1000 * 60)
      if days > 0 then toString days ++ "d " ++ toString hours ++ "h remaining"
      else if hours > 0 then toString hours ++ "h " ++ toString minutes ++ "m remaining"
      else toString minutes ++ "m remaining"

/-- The constant `days` of `getTimeRemaining`:
`Math.floor (diff / (1000 * 60 * 60 * 24))`. -/
def daysOf (diff : Int) : Int :=
  diff / (1000 * 60 * 60 * 24)

/-- The constant `hours` of `getTimeRemaining`:
`Math.floor ((diff % (1000 * 60 * 60 * 24)) / (1000 * 60 * 60))`. -/
def hoursOf (diff : Int) : Int :=
  (Int.tmod diff (1000 * 60 * 60 * 24)) / (1000 * 60 * 60)

/-- The constant `minutes` of `getTimeRemaining`:
`Math.floor ((diff % (1000 * 60 * 60)) / (1000 * 60))`. -/
def minutesOf (diff : Int) : Int :=
  (Int.tmod diff (1000 * 60 * 60)) / (1000 * 60)

/-- A date parser for concrete runs: it knows two instants of 1 January 1970
(UTC) and rejects every other string; the general theorems hold for every
parser. -/
def parseDemo (s : String) : Option Int :=
  if s = "1970-01-01T00:00:00.000Z" then some 0
  else if s = "1970-01-01T01:30:00.000Z" then some 5400000
  else none

/-! ### Sequences of operations -/

/-- One call of the task interface, or one firing of an interval callback. -/
inductive Op
  | addTask (uuid : String) (taskData : Obj)
  | startTimer (taskId : Val)
  | tick (handle : Nat)
  | stopTimer (taskId : Val)
  | completeTask (taskId : Val)
  | deleteTask (taskId : Val)
  deriving DecidableEq, Repr

/-- The state after the operation `op` performed at clock time `now`. -/
def step (iso : Int → String) (s : State) (op : Op) (now : Int) : State :=
  match op with
  | Op.addTask uuid taskData => (addTask iso s uuid taskData now).2
  | Op.startTimer taskId => startTimer iso s taskId now
  | Op.tick handle => tick s handle now
  | Op.stopTimer taskId => stopTimer s taskId now
  | Op.completeTask taskId => completeTask iso s taskId now
  | Op.deleteTask taskId => deleteTask s taskId now

/-- States reachable from the empty store by any sequence of operations, at
any clock readings. -/
inductive Reachable (iso : Int → String) : State → Prop
  | init : Reachable iso State.init
  | step (s : State) (op : Op) (now : Int) :
      Reachable iso s → Reachable iso (step iso s op now)

/-- States reachable from the empty store with a clock that never goes
backwards; the second index is the reading of the last operation. -/
inductive ReachableAt (iso : Int → String) : State → Int → Prop
  | init (c : Int) : ReachableAt iso State.init c
  | step (s : State) (c : Int) (op : Op) (now : Int) :
      ReachableAt iso s c → c ≤ now → ReachableAt iso (step iso s op now) now

/-- The tasks of the store that stay in it across the operation, in store
order: all of them, except the ones `deleteTask` filters out. -/
def survivors (s : State) : Op → List Obj
  | Op.deleteTask taskId => s.tasks.filter (fun task => !hasId taskId task)
  | _ => s.tasks

/-- The `timeSpent` value the nested lookup of `stopTimer` reads:
`tasks.find (t => t.id === taskId)?.timeSpent`. -/
def firstSpent (s : State) (taskId : Val) : Val :=
  match s.tasks.find? (hasId taskId) with
  | some t => readProp t "timeSpent"
  | none => Val.undefined

/-- What `stopTimer (taskId)` makes of one task of the pending list. -/
def stopTask (s : State) (taskId : Val) (now : Int) (t : Obj) : Obj :=
  match getProp s.activeTimers (toKey taskId) with
  | none => t
  | some timer =>
    if hasId taskId t then
      spread t [("timeSpent", addElapsed (firstSpent s taskId) ((now - timer.startTime) / 1000)),
        ("status", Val.str "paused")]
    else t

/-- What the operation makes of one surviving task. -/
def stepTask (iso : Int → String) (s : State) (op : Op) (now : Int) (t : Obj) : Obj :=
  match op with
  | Op.addTask _ _ => t
  | Op.deleteTask _ => t
  | Op.startTimer taskId =>
    match s.tasks.find? (hasId taskId) with
    | none => t
    | some task =>
      if hasId taskId t then
        spread t [("status", Val.str "in-progress"),
          ("startedAt", orElse (readProp task "startedAt") (Val.str (iso now)))]
      else t
  | Op.tick handle =>
    match s.intervals.find? (fun iv => decide (iv.handle = handle)) with
    | none => t
    | some iv =>
      if hasId iv.taskId t then
        setProp t "timeSpent"
          (addElapsed (readProp t "timeSpent") ((now - iv.startTime) / 1000))
      else t
  | Op.stopTimer taskId => stopTask s taskId now t
  | Op.completeTask taskId =>
    if hasId taskId (stopTask s taskId now t) then
      spread (stopTask s taskId now t)
        [("status", Val.str "completed"), ("completedAt", Val.str (iso now))]
    else stopTask s taskId now t

/-- The tasks the operation appends to the store. -/
def appended (iso : Int → String) (op : Op) (now : Int) : List Obj :=
  match op with
  | Op.addTask uuid taskData => [newTask iso uuid taskData now]
  | _ => []

/-- A value is set when it is neither `null` nor `undefined`. -/
def isSet : Val → Bool
  | Val.null => false
  | Val.undefined => false
  | _ => true

/-- The number held in `timeSpent`, 0 when it is not a number. -/
def spentNum (t : Obj) : Int :=
  match readProp t "timeSpent" with
  | Val.num k => k
  | _ => 0

/-- Among the tasks that share an id, the first one of the list has the
largest `timeSpent`. -/
def FirstLeads (l : List Obj) : Prop :=
  ∀ (x : Val) (f t : Obj), l.find? (hasId x) = some f → t ∈ l → hasId x t = true →
    spentNum t ≤ spentNum f

/-- Invariant behind the monotonicity of `timeSpent`, at clock reading `c`:
every `timeSpent` is a non-negative number, no handle and no live interval
has a start time after `c`, and the first task of each id leads. -/
def SpentInv (s : State) (c : Int) : Prop :=
  (∀ t ∈ s.tasks, ∃ k, readProp t "timeSpent" = Val.num k ∧ 0 ≤ k) ∧
  (∀ key timer, getProp s.activeTimers key = some timer → timer.startTime ≤ c) ∧
  (∀ iv ∈ s.intervals, iv.startTime ≤ c) ∧
  FirstLeads s.tasks

/-- The effect of a transformation `f` of tasks on `timeSpent`, over the tasks
of the store: the tasks of one id `y` get `g` of their old value, for a
monotone `g` that keeps values non-negative and lowers none of them, and
all other tasks keep their value. -/
def SpentShape (s : State) (f : Obj → Obj) : Prop :=
  ∃ (y : Val) (g : Int → Int),
    (∀ a b, a ≤ b → g a ≤ g b) ∧
    (∀ a, 0 ≤ a → 0 ≤ g a) ∧
    (∀ t ∈ s.tasks, hasId y t = true → spentNum t ≤ g (spentNum t)) ∧
    ∀ t ∈ s.tasks, readProp (f t) "timeSpent"
      = Val.num (if hasId y t = true then g (spentNum t) else spentNum t)

/-- The run `addTask`, `completeTask ("a")` at 1 s, `startTimer ("a")` at 2 s
from the empty store. -/
def demoRevived : State :=
  step isoDemo (step isoDemo (step isoDemo State.init
    (Op.addTask "a" [("title", Val.str "Write report"), ("assignedTo", Val.str "u1")]) 0)
    (Op.completeTask (Val.str "a")) 1000)
    (Op.startTimer (Val.str "a")) 2000

/-- The run `addTask`, `startTimer ("a")` at 0 ms, a second `addTask` whose
input carries the id "a", `stopTimer ("a")` at 1 s, from the empty store. -/
def demoShared : State :=
  step isoDemo (step isoDemo (step isoDemo (step isoDemo State.init
    (Op.addTask "a" [("title", Val.str "Write report"), ("assignedTo", Val.str "u1")]) 0)
    (Op.startTimer (Val.str "a")) 0)
    (Op.addTask "b" [("id", Val.str "a"), ("title", Val.str "Review report")]) 500)
    (Op.stopTimer (Val.str "a")) 1000

/-- The state after the first `n` firings of the interval callback with
handle `h` of a timer started at `t0`: the `k`-th firing happens at
`t0 + 30000 * k` ms and nothing else happens in between. -/
def tickRun (s : State) (h : Nat) (t0 : Int) : Nat → State
  | 0 => s
  | n + 1 => tick (tickRun s h t0 n) h (t0 + 30000 * ((n : Int) + 1))

/-- Frame condition on a task list for an operation on `taskId`: the list
keeps its length, and every task whose id differs from `taskId` stays at its
position, unchanged. -/
def FrameOn (taskId : Val) (before after : List Obj) : Prop :=
  after.length = before.length ∧
  ∀ (i : Nat) (t : Obj), before[i]? = some t → readProp t "id" ≠ taskId → after[i]? = some t

/-- The store after `updateTask ("a", ...)` with an update that names `id`,
`createdAt`, `assignedBy` and `assignedByName`. -/
def demoRewritten : State :=
  updateTask demoStore (Val.str "a")
    [("id", Val.str "z"), ("createdAt", Val.str "T9"), ("assignedBy", Val.str "u9"),
     ("assignedByName", Val.str "Nobody")]

/-- States reachable from the empty store when `addTask` receives inputs
without an `id` field and generated ids that no task of the store carries,
and the other operations are called with string ids, as the ids of the
store are; ticks may fire at any time. -/
inductive ReachableFresh (iso : Int → String) : State → Prop
  | init : ReachableFresh iso State.init
  | addTask (s : State) (uuid : String) (taskData : Obj) (now : Int) :
      ReachableFresh iso s → getProp taskData "id" = none →
      (∀ t ∈ s.tasks, readProp t "id" ≠ Val.str uuid) →
      ReachableFresh iso (step iso s (Op.addTask uuid taskData) now)
  | startTimer (s : State) (taskId : String) (now : Int) :
      ReachableFresh iso s → ReachableFresh iso (step iso s (Op.startTimer (Val.str taskId)) now)
  | tick (s : State) (handle : Nat) (now : Int) :
      ReachableFresh iso s → ReachableFresh iso (step iso s (Op.tick handle) now)
  | stopTimer (s : State) (taskId : String) (now : Int) :
      ReachableFresh iso s → ReachableFresh iso (step iso s (Op.stopTimer (Val.str taskId)) now)
  | completeTask (s : State) (taskId : String) (now : Int) :
      ReachableFresh iso s →
      ReachableFresh iso (step iso s (Op.completeTask (Val.str taskId)) now)
  | deleteTask (s : State) (taskId : String) (now : Int) :
      ReachableFresh iso s → ReachableFresh iso (step iso s (Op.deleteTask (Val.str taskId)) now)

/-- The ids of the tasks of a store, in store order. -/
def taskIds (s : State) : List Val :=
  s.tasks.map (fun t => readProp t "id")

/-- Invariant linking handles and status: every task id is a string, the ids
are pairwise distinct, and `activeTimers` has a handle under a key exactly
when the store has a task with that id whose status is `in-progress`. -/
def Linked (s : State) : Prop :=
  (∀ t ∈ s.tasks, ∃ u, readProp t "id" = Val.str u) ∧
  (taskIds s).Nodup ∧
  (∀ key, (getProp s.activeTimers key).isSome = true ↔
    ∃ t ∈ s.tasks, readProp t "id" = Val.str key ∧
      readProp t "status" = Val.str "in-progress")

/-- The run `addTask`, `addTask` with an input that carries the id of the
first task, from the empty store. -/
def demoTwins : State :=
  step isoDemo (step isoDemo State.init
    (Op.addTask "a" [("title", Val.str "Write report"), ("assignedTo", Val.str "u1")]) 0)
    (Op.addTask "b" [("id", Val.str "a"), ("title", Val.str "Review report")]) 500

/-! ### Loading the store -/

/-- Outcome of `JSON.parse` on a stored text: a syntax error is thrown, or the
text encodes a list of task records, or it encodes some other value. -/
inductive Parsed
  | syntaxError
  | taskList (l : List Obj)
  | other
  deriving DecidableEq, Repr

/-- Outcome of the load effect of the task provider: the effect completes
with `tasks` holding a list, or `JSON.parse` throws inside the effect (nothing
catches it), or `setTasks` receives a value that is not a task list. -/
inductive Loaded
  | ok (tasks : List Obj)
  | threw
  | notAList
  deriving DecidableEq, Repr

/-- The load effect: `localStorage.getItem ('taskflow_tasks')` gives `stored`
(`none` for `null`), the guard `if (storedTasks)` skips a missing or empty
text, and `setTasks (JSON.parse (storedTasks))` runs otherwise, on the
initial state `[]`. The parser `jsonParse` is a parameter. -/
def loadTasks (jsonParse : String → Parsed) (stored : Option String) : Loaded :=
  match stored with
  | none => Loaded.ok []
  | some text =>
    if text = "" then Loaded.ok []
    else
      match jsonParse text with
      | Parsed.syntaxError => Loaded.threw
      | Parsed.taskList l => Loaded.ok l
      | Parsed.other => Loaded.notAList

/-- A parser for concrete runs: it knows the empty list and `null` and takes
every other text as malformed; the general theorems hold for every parser. -/
def jsonDemo (text : String) : Parsed :=
  if text = "[]" then Parsed.taskList []
  else if text = "null" then Parsed.other
  else Parsed.syntaxError

/-! ### The user list -/

/-- Result of `signup`: `{ success, error }`. -/
structure AuthResult where
  success : Bool
  error : Option String
  deriving DecidableEq, Repr

/-- The predicate `u => u.email === email`. -/
def hasEmail (email : Val) (u : Obj) : Bool :=
  decide (readProp u "email" = email)

/-- The operation `signup (userData)` of the auth context on the stored user
list `users` (well-formed, so the `catch` branch is not taken): the list
written back to the store, which is `users` itself when nothing is written,
and the result returned. -/
def signup (iso : Int → String) (users : List Obj) (userData : Obj) (now : Int) :
    List Obj × AuthResult :=
  match users.find? (hasEmail (readProp userData "email")) with
  | some _ => (users, { success := false, error := some "User already exists" })
  | none =>
    (users ++ [setProp (spread [("id", Val.str (toString now))] userData)
        "createdAt" (Val.str (iso now))],
     { success := true, error := none })

/-- The handler `handleAddEmployee` of the admin panel on the stored user list
`users`, for the form record `newEmployee` and the id of the signed-in
admin: the list written back to the store, which is `users` itself when
nothing is written, and whether the alert `Employee with this email already
exists` was shown. -/
def handleAddEmployee (iso : Int → String) (users : List Obj) (newEmployee : Obj)
    (adminId : Val) (now : Int) : List Obj × Bool :=
  match users.find? (hasEmail (readProp newEmployee "email")) with
  | some _ => (users, true)
  | none =>
    (users ++ [setProp (setProp (spread [("id", Val.str (toString now))] newEmployee)
        "createdAt" (Val.str (iso now))) "createdBy" adminId],
     false)

/-- The emails of a user list, in list order. -/
def emails (users : List Obj) : List Val :=
  users.map (fun u => readProp u "email")

/-- A stored user list with one employee. -/
def demoUsers : List Obj :=
  [[("id", Val.str "1"), ("name", Val.str "Ann"), ("email", Val.str "ann@example.org"),
    ("role", Val.str "employee")]]

/-! ### The handle lookup with inherited members -/

/-- The names of the members a plain object inherits from `Object.prototype`;
each of them reads as a truthy value (a function, and for `__proto__` the
prototype object). -/
def protoKeys : List String :=
  ["constructor", "__defineGetter__", "__defineSetter__", "hasOwnProperty",
   "__lookupGetter__", "__lookupSetter__", "isPrototypeOf", "propertyIsEnumerable",
   "toString", "valueOf", "__proto__", "toLocaleString"]

/-- What the read `activeTimers[taskId]` finds: an own entry, else an inherited
member of `Object.prototype`, else nothing (`undefined`). -/
inductive TimerRead
  | own (timer : Timer)
  | inherited
  | missing
  deriving DecidableEq, Repr

/-- The read `activeTimers[key]` along the prototype chain. -/
def readTimer (timers : List (String × Timer)) (key : String) : TimerRead :=
  match getProp timers key with
  | some timer => TimerRead.own timer
  | none => if key ∈ protoKeys then TimerRead.inherited else TimerRead.missing

/-- The expression `(v || 0) + elapsed` when `elapsed` is `NaN`: the number
`NaN`, or a string ending in `NaN` for a non-empty string `v`. The value type
has no `NaN`; it is the parameter `nan`. -/
def addNaN (nan : Val) (v : Val) : Val :=
  match v with
  | Val.str s => if s = "" then nan else Val.str (s ++ "NaN")
  | _ => nan

/-- The operation `stopTimer (taskId)` with the full lookup, run from a handler
whose render snapshot is `snap` while the pending state is `cur`. An own entry
is a handle and is stopped as in `stopTimerIn`. An inherited member is truthy
too, so the branch `if (timer)` runs: `timer.interval` and `timer.startTime`
are `undefined`, `clearInterval (undefined)` clears nothing, `elapsed` is
`Math.floor ((Date.now () - undefined) / 1000)`, which is `NaN`, the update
writes `(timeSpent || 0) + NaN` and `'paused'`, and the `delete` removes the
own entry of the pending map if there is one. -/
def stopTimerFullIn (nan : Val) (snap cur : State) (taskId : Val) (now : Int) : State :=
  match readTimer snap.activeTimers (toKey taskId) with
  | TimerRead.missing => cur
  | TimerRead.own timer =>
    let elapsed := (now - timer.startTime) / 1000
    let cur1 := updateTask cur taskId
      [("timeSpent", addElapsed (firstSpent snap taskId) elapsed), ("status", Val.str "paused")]
    { cur1 with
      intervals := cur1.intervals.filter (fun iv => decide (iv.handle ≠ timer.interval))
      activeTimers := deleteProp cur1.activeTimers (toKey taskId) }
  | TimerRead.inherited =>
    let cur1 := updateTask cur taskId
      [("timeSpent", addNaN nan (firstSpent snap taskId)), ("status", Val.str "paused")]
    { cur1 with activeTimers := deleteProp cur1.activeTimers (toKey taskId) }

/-- The operation `stopTimer (taskId)` with the full lookup, called on its own. -/
def stopTimerFull (nan : Val) (s : State) (taskId : Val) (now : Int) : State :=
  stopTimerFullIn nan s s taskId now

/-- The store after `addTask` with an input that carries the id `toString`:
one pending task, no timer. -/
def demoProto : State :=
  step isoDemo State.init
    (Op.addTask "a" [("id", Val.str "toString"), ("title", Val.str "Write report")]) 0

/-- The store `demoProto` after `startTimer ("toString")` at 0 ms: the task is in
progress and has its own handle. -/
def demoProtoRunning : State :=
  startTimer isoDemo demoProto (Val.str "toString") 0

/-! ## Objects: lookup after write, spread and removal -/

theorem getProp_eq_none_iff {β : Type} (o : List (String × β)) (k : String) :
    getProp o k = none ↔ ∀ e ∈ o, e.1 ≠ k := by
  induction o with
  | nil => simp [getProp]
  | cons e o ih =>
    obtain ⟨k0, v0⟩ := e
    simp only [getProp, List.mem_cons, forall_eq_or_imp, Option.or_eq_none, ih]
    by_cases hk : k0 = k <;> simp [hk, and_comm]

theorem getProp_append {β : Type} (a b : List (String × β)) (k : String) :
    getProp (a ++ b) k = (getProp b k).or (getProp a k) := by
  induction a with
  | nil => simp [getProp]
  | cons e a ih =>
    obtain ⟨k0, v0⟩ := e
    rw [List.cons_append]
    simp only [getProp, ih, Option.or_assoc]

theorem getProp_map_write {β : Type} (o : List (String × β)) (k : String) (v : β) (k' : String) :
    getProp (o.map (fun e => if e.1 = k then (k, v) else e)) k' =
      if k = k' then (if o.any (fun e => decide (e.1 = k)) then some v else none)
      else getProp o k' := by
  induction o with
  | nil => simp [getProp]
  | cons e o ih =>
    obtain ⟨k0, v0⟩ := e
    rw [List.map_cons, List.any_cons]
    by_cases h0 : k0 = k
    · have e1 : (if (k0, v0).1 = k then (k, v) else (k0, v0)) = (k, v) := if_pos h0
      rw [e1]
      simp only [getProp, ih]
      by_cases hk : k = k'
      · subst hk
        by_cases ha : o.any (fun e => decide (e.1 = k)) = true
        · simp [ha, h0]
        · simp [ha, h0]
      · have hk0 : ¬ k0 = k' := fun h => hk (h0 ▸ h)
        simp [hk, hk0]
    · have e1 : (if (k0, v0).1 = k then (k, v) else (k0, v0)) = (k0, v0) := if_neg h0
      rw [e1]
      simp only [getProp, ih]
      by_cases hk : k = k'
      · subst hk
        by_cases ha : o.any (fun e => decide (e.1 = k)) = true
        · simp [ha, h0]
        · simp [ha, h0]
      · simp [hk]

theorem getProp_setProp {β : Type} (o : List (String × β)) (k : String) (v : β) (k' : String) :
    getProp (setProp o k v) k' = if k = k' then some v else getProp o k' := by
  unfold setProp
  by_cases ha : o.any (fun e => decide (e.1 = k)) = true
  · rw [if_pos ha, getProp_map_write, if_pos ha]
  · rw [if_neg ha, getProp_append]
    by_cases hk : k = k'
    · simp [getProp, hk]
    · simp [getProp, hk]

theorem getProp_spread (a b : Obj) (k : String) :
    getProp (spread a b) k = (getProp b k).or (getProp a k) := by
  unfold spread
  induction b generalizing a with
  | nil => simp [getProp]
  | cons e b ih =>
    obtain ⟨k0, v0⟩ := e
    simp only [List.foldl_cons, ih, getProp_setProp, getProp, Option.or_assoc]
    by_cases hk : k0 = k
    · simp [hk]
    · simp [hk]

theorem getProp_deleteProp {β : Type} (o : List (String × β)) (k k' : String) :
    getProp (deleteProp o k) k' = if k = k' then none else getProp o k' := by
  unfold deleteProp
  induction o with
  | nil => simp [getProp]
  | cons e o ih =>
    obtain ⟨k0, v0⟩ := e
    by_cases h0 : k0 = k
    · have hf : List.filter (fun e => decide (e.1 ≠ k)) ((k0, v0) :: o)
          = List.filter (fun e => decide (e.1 ≠ k)) o := by
        simp [List.filter_cons, h0]
      rw [hf, ih]
      by_cases hk : k = k'
      · simp [hk]
      · have hk0 : ¬ k0 = k' := fun h => hk (h0 ▸ h)
        simp [hk, getProp, hk0]
    · have hf : List.filter (fun e => decide (e.1 ≠ k)) ((k0, v0) :: o)
          = (k0, v0) :: List.filter (fun e => decide (e.1 ≠ k)) o := by
        simp [List.filter_cons, h0]
      rw [hf]
      simp only [getProp, ih]
      by_cases hk : k = k'
      · subst hk
        simp [h0]
      · simp [hk]

theorem setProp_of_none {β : Type} (o : List (String × β)) (k : String) (v : β)
    (h : getProp o k = none) : setProp o k v = o ++ [(k, v)] := by
  unfold setProp
  have hall := (getProp_eq_none_iff o k).mp h
  have ha : ¬ (o.any (fun e => decide (e.1 = k)) = true) := by
    intro hany
    obtain ⟨e, he, hek⟩ := List.any_eq_true.mp hany
    exact hall e he (by simpa using hek)
  rw [if_neg ha]

theorem readProp_setProp (o : Obj) (k : String) (v : Val) (k' : String) :
    readProp (setProp o k v) k' = if k = k' then v else readProp o k' := by
  unfold readProp
  rw [getProp_setProp]
  split_ifs <;> rfl

theorem readProp_spread_of_none (a b : Obj) (k : String) (h : getProp b k = none) :
    readProp (spread a b) k = readProp a k := by
  unfold readProp
  rw [getProp_spread, h]
  rfl

theorem readProp_spread_of_some (a b : Obj) (k : String) (v : Val) (h : getProp b k = some v) :
    readProp (spread a b) k = v := by
  unfold readProp
  rw [getProp_spread, h]
  rfl

/-! ## The store: lookup by id after an update -/

theorem hasId_spread (taskId : Val) (t u : Obj) (h : getProp u "id" = none) :
    hasId taskId (spread t u) = hasId taskId t := by
  unfold hasId
  rw [readProp_spread_of_none t u "id" h]

theorem hasId_setProp (taskId : Val) (t : Obj) (k : String) (v : Val) (h : k ≠ "id") :
    hasId taskId (setProp t k v) = hasId taskId t := by
  unfold hasId
  rw [readProp_setProp, if_neg h]

theorem find_map_keepId (l : List Obj) (taskId : Val) (f : Obj → Obj)
    (hf : ∀ t, hasId taskId (f t) = hasId taskId t) :
    (l.map f).find? (hasId taskId) = (l.find? (hasId taskId)).map f := by
  rw [List.find?_map]
  have : (hasId taskId ∘ f) = hasId taskId := funext hf
  rw [this]

theorem find_map_update (l : List Obj) (taskId : Val) (u : Obj) (h : getProp u "id" = none) :
    (l.map (fun task => if hasId taskId task then spread task u else task)).find? (hasId taskId)
      = (l.find? (hasId taskId)).map (fun task => spread task u) := by
  induction l with
  | nil => rfl
  | cons t l ih =>
    rw [List.map_cons, List.find?_cons, List.find?_cons]
    by_cases ht : hasId taskId t = true
    · simp [ht, hasId_spread taskId t u h]
    · simp only [ht, if_false]
      simpa [ht] using ih

theorem map_update_absent (l : List Obj) (taskId : Val) (g : Obj → Obj)
    (h : ∀ t ∈ l, hasId taskId t = false) :
    l.map (fun task => if hasId taskId task then g task else task) = l := by
  induction l with
  | nil => rfl
  | cons t l ih =>
    rw [List.map_cons, ih (fun x hx => h x (List.mem_cons_of_mem _ hx))]
    simp [h t (List.mem_cons_self _ _)]

theorem findTask_updateTask (s : State) (taskId : Val) (u : Obj) (h : getProp u "id" = none) :
    findTask (updateTask s taskId u) taskId = (findTask s taskId).map (fun task => spread task u) :=
  find_map_update s.tasks taskId u h

/-- With a handle present, `stopTimerIn` is the update of the pending state
followed by the release of the handle and of its interval. -/
theorem stopTimerIn_running (snap cur : State) (taskId : Val) (now : Int) (timer : Timer)
    (hrun : getProp snap.activeTimers (toKey taskId) = some timer) :
    stopTimerIn snap cur taskId now =
      { updateTask cur taskId
          [("timeSpent",
              addElapsed ((snap.tasks.find? (hasId taskId)).elim Val.undefined
                (fun t => readProp t "timeSpent")) ((now - timer.startTime) / 1000)),
           ("status", Val.str "paused")] with
        intervals := cur.intervals.filter (fun iv => decide (iv.handle ≠ timer.interval))
        activeTimers := deleteProp cur.activeTimers (toKey taskId) } := by
  unfold stopTimerIn
  rw [hrun]
  cases h : snap.tasks.find? (hasId taskId) <;> simp [updateTask]

theorem stopTimerIn_idle (snap cur : State) (taskId : Val) (now : Int)
    (hidle : getProp snap.activeTimers (toKey taskId) = none) :
    stopTimerIn snap cur taskId now = cur := by
  unfold stopTimerIn
  rw [hidle]

theorem addElapsed_num (k e : Int) : addElapsed (Val.num k) e = Val.num (k + e) := rfl

theorem addElapsed_falsy (v : Val) (e : Int) (h : truthy v = false) :
    addElapsed v e = Val.num (0 + e) := by
  cases v with
  | undefined => simp [addElapsed]
  | null => simp [addElapsed]
  | bool b =>
    cases b with
    | false => simp [addElapsed]
    | true => simp [truthy] at h
  | num m =>
    have hm : m = 0 := by simpa [truthy] using h
    simp [addElapsed, hm]
  | str t =>
    have ht : t = "" := by simpa [truthy] using h
    simp [addElapsed, ht]

/-- With the task present, `startTimer` is the update of the task followed
by the registration of a new interval and of its handle. -/
theorem startTimer_found (iso : Int → String) (s : State) (taskId : Val) (n : Int) (task : Obj)
    (htask : findTask s taskId = some task) :
    startTimer iso s taskId n =
      { tasks := (updateTask s taskId
          [("status", Val.str "in-progress"),
           ("startedAt", orElse (readProp task "startedAt") (Val.str (iso n)))]).tasks
        activeTimers := setProp s.activeTimers (toKey taskId)
          { interval := s.nextInterval, startTime := n }
        intervals := s.intervals ++
          [{ handle := s.nextInterval, taskId := taskId, startTime := n }]
        nextInterval := s.nextInterval + 1 } := by
  unfold findTask at htask
  unfold startTimer
  rw [htask]
  rfl

theorem findTask_startTimer (iso : Int → String) (s : State) (taskId : Val) (n : Int)
    (task : Obj) (htask : findTask s taskId = some task) :
    findTask (startTimer iso s taskId n) taskId =
      some (spread task [("status", Val.str "in-progress"),
        ("startedAt", orElse (readProp task "startedAt") (Val.str (iso n)))]) := by
  rw [startTimer_found iso s taskId n task htask]
  have h := findTask_updateTask s taskId [("status", Val.str "in-progress"),
    ("startedAt", orElse (readProp task "startedAt") (Val.str (iso n)))] (by simp [getProp])
  rw [htask] at h
  exact h

theorem completeTask_idle (iso : Int → String) (s : State) (taskId : Val) (n : Int)
    (hidle : getProp s.activeTimers (toKey taskId) = none) :
    completeTask iso s taskId n =
      updateTask s taskId
        [("status", Val.str "completed"), ("completedAt", Val.str (iso n))] := by
  unfold completeTask
  rw [hidle]
  rfl

theorem completeTask_running (iso : Int → String) (s : State) (taskId : Val) (n : Int)
    (timer : Timer) (hrun : getProp s.activeTimers (toKey taskId) = some timer) :
    completeTask iso s taskId n =
      updateTask (stopTimer s taskId n) taskId
        [("status", Val.str "completed"), ("completedAt", Val.str (iso n))] := by
  unfold completeTask stopTimer
  rw [hrun]
  rfl

/-- Effect of `stopTimer` on a running timer, for any prior `timeSpent`. -/
theorem stopTimer_spec_aux (s : State) (taskId : Val) (n : Int) (timer : Timer) (task : Obj)
    (hrun : getProp s.activeTimers (toKey taskId) = some timer)
    (htask : findTask s taskId = some task) :
    ∃ task', findTask (stopTimer s taskId n) taskId = some task' ∧
      readProp task' "timeSpent"
        = addElapsed (readProp task "timeSpent") ((n - timer.startTime) / 1000) ∧
      readProp task' "status" = Val.str "paused" ∧
      getProp (stopTimer s taskId n).activeTimers (toKey taskId) = none ∧
      ∀ key, key ≠ toKey taskId →
        getProp (stopTimer s taskId n).activeTimers key = getProp s.activeTimers key := by
  have hfind : s.tasks.find? (hasId taskId) = some task := htask
  have hst := stopTimerIn_running s s taskId n timer hrun
  rw [hfind] at hst
  simp only [Option.elim] at hst
  unfold stopTimer
  rw [hst]
  refine ⟨spread task [("timeSpent",
      addElapsed (readProp task "timeSpent") ((n - timer.startTime) / 1000)),
      ("status", Val.str "paused")], ?_, ?_, ?_, ?_, ?_⟩
  · show List.find? (hasId taskId) (updateTask s taskId _).tasks = _
    have := findTask_updateTask s taskId [("timeSpent",
      addElapsed (readProp task "timeSpent") ((n - timer.startTime) / 1000)),
      ("status", Val.str "paused")] (by simp [getProp])
    unfold findTask at this
    rw [this, hfind]
    rfl
  · exact readProp_spread_of_some _ _ "timeSpent"
      (addElapsed (readProp task "timeSpent") ((n - timer.startTime) / 1000))
      (by simp [getProp])
  · exact readProp_spread_of_some _ _ "status" (Val.str "paused") (by simp [getProp])
  · show getProp (deleteProp s.activeTimers (toKey taskId)) (toKey taskId) = none
    rw [getProp_deleteProp, if_pos rfl]
  · intro key hkey
    show getProp (deleteProp s.activeTimers (toKey taskId)) key = _
    rw [getProp_deleteProp, if_neg (fun h => hkey h.symm)]

theorem updateTask_absent (s : State) (taskId : Val) (updates : Obj)
    (habsent : ∀ t ∈ s.tasks, readProp t "id" ≠ taskId) :
    updateTask s taskId updates = s := by
  unfold updateTask
  rw [map_update_absent s.tasks taskId (fun task => spread task updates)
    (fun t ht => by simpa [hasId] using habsent t ht)]

theorem readProp_newTask (iso : Int → String) (uuid : String) (taskData : Obj) (n : Int)
    (k : String) :
    readProp (newTask iso uuid taskData n) k =
      if "completedAt" = k then Val.null
      else if "startedAt" = k then Val.null
      else if "createdAt" = k then Val.str (iso n)
      else if "timeSpent" = k then Val.num 0
      else if "status" = k then Val.str "pending"
      else readProp (spread [("id", Val.str uuid)] taskData) k := by
  unfold newTask
  simp only [readProp_setProp]

/-! ## Timer operations, creation and updates -/

/-- C1 (defect in the code): one run of the timer on the fresh task, started
at 0 ms, with one periodic tick at 30 s and the stop at 60 s, leaves
`timeSpent = 90`, not the 60 seconds that elapsed: the tick added 30 and the
stop added the whole 60 again. -/
theorem timer_run_with_tick_counts_twice :
    timeSpentOf demoStore (Val.str "a") = some (Val.num 0) ∧
    timeSpentOf
      (stopTimer (tick (startTimer isoDemo demoStore (Val.str "a") 0) 0 30000) (Val.str "a") 60000)
      (Val.str "a") = some (Val.num 90) ∧
    (60000 - 0 : Int) / 1000 = 60 := by
  decide

/-- C2: `stopTimer (id)` with a running timer whose handle recorded the start
time `timer.startTime`, called at clock time `n`: the task's `timeSpent`
becomes its current value (0 when unset, that is falsy) plus
`floor ((n - startTime) / 1000)`,
its status becomes `paused`, the handle of `id` is gone and every other handle
is kept. -/
theorem stopTimer_running (s : State) (taskId : Val) (n : Int) (timer : Timer) (task : Obj)
    (k : Int)
    (hrun : getProp s.activeTimers (toKey taskId) = some timer)
    (htask : findTask s taskId = some task)
    (hspent : readProp task "timeSpent" = Val.num k ∨
      (truthy (readProp task "timeSpent") = false ∧ k = 0)) :
    ∃ task', findTask (stopTimer s taskId n) taskId = some task' ∧
      readProp task' "timeSpent" = Val.num (k + (n - timer.startTime) / 1000) ∧
      readProp task' "status" = Val.str "paused" ∧
      getProp (stopTimer s taskId n).activeTimers (toKey taskId) = none ∧
      ∀ key, key ≠ toKey taskId →
        getProp (stopTimer s taskId n).activeTimers key = getProp s.activeTimers key := by
  obtain ⟨task', h1, h2, h3, h4, h5⟩ := stopTimer_spec_aux s taskId n timer task hrun htask
  refine ⟨task', h1, ?_, h3, h4, h5⟩
  rw [h2]
  rcases hspent with h | ⟨h, hk⟩
  · rw [h, addElapsed_num]
  · rw [hk, addElapsed_falsy _ _ h]

/-- C2 at a concrete state: the fresh task with a timer started at 0 ms and
stopped at 300 s. -/
theorem stopTimer_running_witness :
    ∃ task', findTask (stopTimer (startTimer isoDemo demoStore (Val.str "a") 0) (Val.str "a")
        300000) (Val.str "a") = some task' ∧
      readProp task' "timeSpent" = Val.num (0 + (300000 - 0) / 1000) ∧
      readProp task' "status" = Val.str "paused" ∧
      getProp (stopTimer (startTimer isoDemo demoStore (Val.str "a") 0) (Val.str "a")
        300000).activeTimers (toKey (Val.str "a")) = none ∧
      ∀ key, key ≠ toKey (Val.str "a") →
        getProp (stopTimer (startTimer isoDemo demoStore (Val.str "a") 0) (Val.str "a")
          300000).activeTimers key
          = getProp (startTimer isoDemo demoStore (Val.str "a") 0).activeTimers key :=
  stopTimer_running (startTimer isoDemo demoStore (Val.str "a") 0) (Val.str "a") 300000
    { interval := 0, startTime := 0 }
    (spread demoTask [("status", Val.str "in-progress"), ("startedAt", Val.str (isoDemo 0))]) 0
    (by decide) (by decide) (Or.inl (by decide))

/-- C3 (as stated, refuted): with the timer of task "a" running since 0 ms, a
second `startTimer ("a")` at 5 s replaces the handle: its recorded start time
moves from 0 to 5000 and a second interval is registered. -/
theorem startTimer_running_not_noop :
    getProp demoRunning.activeTimers (toKey (Val.str "a"))
      = some { interval := 0, startTime := 0 } ∧
    getProp (startTimer isoDemo demoRunning (Val.str "a") 5000).activeTimers (toKey (Val.str "a"))
      = some { interval := 1, startTime := 5000 } ∧
    (startTimer isoDemo demoRunning (Val.str "a") 5000).intervals.length = 2 := by
  decide

/-- C3 (amended): `startTimer (id)` does not look at `activeTimers`. When a
handle for `id` exists and the task is in the store, the call replaces the
handle by a new one whose start time is the time of the call, registers a new
interval after the ones that are live without clearing any (so the handle
changes whenever the recorded start time differs from the time of the call),
keeps the handles of all other ids, sets the status to `in-progress` and `startedAt` to its
previous value when that is set (the time of the call otherwise), and leaves
every other field of the task as it was. -/
theorem startTimer_running_restarts (iso : Int → String) (s : State) (taskId : Val) (n : Int)
    (timer : Timer) (task : Obj)
    (hrun : getProp s.activeTimers (toKey taskId) = some timer)
    (htask : findTask s taskId = some task) :
    getProp (startTimer iso s taskId n).activeTimers (toKey taskId)
      = some { interval := s.nextInterval, startTime := n } ∧
    (startTimer iso s taskId n).intervals
      = s.intervals ++ [{ handle := s.nextInterval, taskId := taskId, startTime := n }] ∧
    (timer.startTime ≠ n →
      getProp (startTimer iso s taskId n).activeTimers (toKey taskId)
        ≠ getProp s.activeTimers (toKey taskId)) ∧
    (∀ key, key ≠ toKey taskId →
      getProp (startTimer iso s taskId n).activeTimers key = getProp s.activeTimers key) ∧
    ∃ task', findTask (startTimer iso s taskId n) taskId = some task' ∧
      readProp task' "status" = Val.str "in-progress" ∧
      readProp task' "startedAt" = orElse (readProp task "startedAt") (Val.str (iso n)) ∧
      ∀ k, k ≠ "status" → k ≠ "startedAt" → getProp task' k = getProp task k := by
  have hst := startTimer_found iso s taskId n task htask
  refine ⟨?_, ?_, ?_, ?_, ?_⟩
  · rw [hst]
    show getProp (setProp s.activeTimers (toKey taskId) _) (toKey taskId) = _
    rw [getProp_setProp, if_pos rfl]
  · rw [hst]
  · intro hne heq
    rw [hst, hrun] at heq
    have h2 : getProp (setProp s.activeTimers (toKey taskId)
        { interval := s.nextInterval, startTime := n }) (toKey taskId) = some timer := heq
    rw [getProp_setProp, if_pos rfl] at h2
    injection h2 with h3
    exact hne (by rw [← h3])
  · intro key hkey
    rw [hst]
    show getProp (setProp s.activeTimers (toKey taskId) _) key = _
    rw [getProp_setProp, if_neg (fun h => hkey h.symm)]
  · refine ⟨_, findTask_startTimer iso s taskId n task htask, ?_, ?_, ?_⟩
    · exact readProp_spread_of_some _ _ "status" (Val.str "in-progress") (by simp [getProp])
    · exact readProp_spread_of_some _ _ "startedAt" _ (by simp [getProp])
    · intro k hk1 hk2
      rw [getProp_spread]
      have : getProp [("status", Val.str "in-progress"),
          ("startedAt", orElse (readProp task "startedAt") (Val.str (iso n)))] k = none := by
        simp [getProp, Ne.symm hk1, Ne.symm hk2]
      rw [this]
      rfl

/-- C3 (amended) at a concrete state: the running timer of task "a" restarted
at 5 s. -/
theorem startTimer_running_restarts_witness :
    getProp (startTimer isoDemo demoRunning (Val.str "a") 5000).activeTimers (toKey (Val.str "a"))
      = some { interval := demoRunning.nextInterval, startTime := 5000 } ∧
    (startTimer isoDemo demoRunning (Val.str "a") 5000).intervals
      = demoRunning.intervals ++
        [{ handle := demoRunning.nextInterval, taskId := Val.str "a", startTime := 5000 }] :=
  have h := startTimer_running_restarts isoDemo demoRunning (Val.str "a") 5000
    { interval := 0, startTime := 0 }
    (spread demoTask [("status", Val.str "in-progress"), ("startedAt", Val.str (isoDemo 0))])
    (by decide) (by decide)
  ⟨h.1, h.2.1⟩

/-- C4 (as stated, refuted): task "a" is completed and has no handle;
`startTimer ("a")` at 2 s puts it back to `in-progress` and creates a handle. -/
theorem startTimer_revives_completed :
    statusOf demoDone (Val.str "a") = some (Val.str "completed") ∧
    getProp demoDone.activeTimers (toKey (Val.str "a")) = none ∧
    statusOf (startTimer isoDemo demoDone (Val.str "a") 2000) (Val.str "a")
      = some (Val.str "in-progress") ∧
    getProp (startTimer isoDemo demoDone (Val.str "a") 2000).activeTimers (toKey (Val.str "a"))
      = some { interval := 0, startTime := 2000 } := by
  decide

/-- C4 (amended): the timer operations do not look at the status. For a task
whose status is `completed`: `stopTimer (id)` changes nothing when no handle
exists for `id`, while `startTimer (id)` sets the status to `in-progress` and
creates a handle for `id` with the time of the call. -/
theorem completed_not_guarded (iso : Int → String) (s : State) (taskId : Val) (n : Int)
    (task : Obj)
    (htask : findTask s taskId = some task)
    (hdone : readProp task "status" = Val.str "completed") :
    (getProp s.activeTimers (toKey taskId) = none → stopTimer s taskId n = s) ∧
    statusOf s taskId = some (Val.str "completed") ∧
    statusOf (startTimer iso s taskId n) taskId = some (Val.str "in-progress") ∧
    getProp (startTimer iso s taskId n).activeTimers (toKey taskId)
      = some { interval := s.nextInterval, startTime := n } := by
  refine ⟨?_, ?_, ?_, ?_⟩
  · intro hidle
    exact stopTimerIn_idle s s taskId n hidle
  · unfold statusOf
    rw [htask]
    simp [hdone]
  · unfold statusOf
    rw [findTask_startTimer iso s taskId n task htask]
    simp only [Option.map_some']
    rw [readProp_spread_of_some _ _ "status" (Val.str "in-progress") (by simp [getProp])]
  · rw [startTimer_found iso s taskId n task htask]
    show getProp (setProp s.activeTimers (toKey taskId) _) (toKey taskId) = _
    rw [getProp_setProp, if_pos rfl]

/-- C4 (amended) at a concrete state: the completed task "a". -/
theorem completed_not_guarded_witness :
    (getProp demoDone.activeTimers (toKey (Val.str "a")) = none →
      stopTimer demoDone (Val.str "a") 2000 = demoDone) ∧
    statusOf demoDone (Val.str "a") = some (Val.str "completed") ∧
    statusOf (startTimer isoDemo demoDone (Val.str "a") 2000) (Val.str "a")
      = some (Val.str "in-progress") ∧
    getProp (startTimer isoDemo demoDone (Val.str "a") 2000).activeTimers (toKey (Val.str "a"))
      = some { interval := demoDone.nextInterval, startTime := 2000 } :=
  completed_not_guarded isoDemo demoDone (Val.str "a") 2000
    (spread demoTask [("status", Val.str "completed"), ("completedAt", Val.str (isoDemo 1000))])
    (by decide) (by decide)

/-- C6: `startTimer (id)` on a task of the store with no running timer, at
clock time `n`: the status is `in-progress`, `startedAt` is its previous value
when one was set and the time of the call otherwise, `timeSpent` is unchanged,
and `activeTimers` holds a handle for `id` whose start time is `n`. -/
theorem startTimer_idle (iso : Int → String) (s : State) (taskId : Val) (n : Int) (task : Obj)
    (htask : findTask s taskId = some task)
    (hidle : getProp s.activeTimers (toKey taskId) = none) :
    (startTimer iso s taskId n).activeTimers
      = s.activeTimers ++ [(toKey taskId, { interval := s.nextInterval, startTime := n })] ∧
    ∃ task' timer, findTask (startTimer iso s taskId n) taskId = some task' ∧
      readProp task' "status" = Val.str "in-progress" ∧
      readProp task' "startedAt" =
        (if truthy (readProp task "startedAt") then readProp task "startedAt"
         else Val.str (iso n)) ∧
      readProp task' "timeSpent" = readProp task "timeSpent" ∧
      getProp (startTimer iso s taskId n).activeTimers (toKey taskId) = some timer ∧
      timer.startTime = n := by
  refine ⟨?_, _, { interval := s.nextInterval, startTime := n },
    findTask_startTimer iso s taskId n task htask, ?_, ?_, ?_, ?_, rfl⟩
  · rw [startTimer_found iso s taskId n task htask]
    exact setProp_of_none s.activeTimers (toKey taskId) _ hidle
  · exact readProp_spread_of_some _ _ "status" (Val.str "in-progress") (by simp [getProp])
  · rw [readProp_spread_of_some _ _ "startedAt"
      (orElse (readProp task "startedAt") (Val.str (iso n))) (by simp [getProp])]
    rfl
  · exact readProp_spread_of_none _ _ "timeSpent" (by simp [getProp])
  · rw [startTimer_found iso s taskId n task htask]
    show getProp (setProp s.activeTimers (toKey taskId) _) (toKey taskId) = _
    rw [getProp_setProp, if_pos rfl]

/-- C6 at a concrete state: the first start of the fresh task "a" at 7 ms. -/
theorem startTimer_idle_witness :
    (startTimer isoDemo demoStore (Val.str "a") 7).activeTimers
      = demoStore.activeTimers ++
        [(toKey (Val.str "a"), { interval := demoStore.nextInterval, startTime := 7 })] ∧
    ∃ task' timer, findTask (startTimer isoDemo demoStore (Val.str "a") 7) (Val.str "a")
        = some task' ∧
      readProp task' "status" = Val.str "in-progress" ∧
      readProp task' "startedAt" =
        (if truthy (readProp demoTask "startedAt") then readProp demoTask "startedAt"
         else Val.str (isoDemo 7)) ∧
      readProp task' "timeSpent" = readProp demoTask "timeSpent" ∧
      getProp (startTimer isoDemo demoStore (Val.str "a") 7).activeTimers (toKey (Val.str "a"))
        = some timer ∧
      timer.startTime = 7 :=
  startTimer_idle isoDemo demoStore (Val.str "a") 7 demoTask (by decide) (by decide)

/-- C5: `completeTask (id)` on a task of the store at clock time `n`:
afterwards the status is `completed` and `completedAt` is the time of the
call; no handle exists for `id`; when a timer was running with start time
`timer.startTime`, `timeSpent` has grown by `floor ((n - startTime) / 1000)`
(from 0 when it was unset, that is falsy); when none was running, `timeSpent` is unchanged. -/
theorem completeTask_spec (iso : Int → String) (s : State) (taskId : Val) (n : Int)
    (task : Obj) (htask : findTask s taskId = some task) :
    ∃ task', findTask (completeTask iso s taskId n) taskId = some task' ∧
      readProp task' "status" = Val.str "completed" ∧
      readProp task' "completedAt" = Val.str (iso n) ∧
      getProp (completeTask iso s taskId n).activeTimers (toKey taskId) = none ∧
      (∀ (timer : Timer) (k : Int), getProp s.activeTimers (toKey taskId) = some timer →
        (readProp task "timeSpent" = Val.num k ∨
          (truthy (readProp task "timeSpent") = false ∧ k = 0)) →
        readProp task' "timeSpent" = Val.num (k + (n - timer.startTime) / 1000)) ∧
      (getProp s.activeTimers (toKey taskId) = none →
        readProp task' "timeSpent" = readProp task "timeSpent") := by
  have hU : getProp [("status", Val.str "completed"), ("completedAt", Val.str (iso n))] "id"
      = none := by simp [getProp]
  have hS : getProp [("status", Val.str "completed"), ("completedAt", Val.str (iso n))] "status"
      = some (Val.str "completed") := by simp [getProp]
  have hC : getProp [("status", Val.str "completed"), ("completedAt", Val.str (iso n))]
      "completedAt" = some (Val.str (iso n)) := by simp [getProp]
  have hT : getProp [("status", Val.str "completed"), ("completedAt", Val.str (iso n))]
      "timeSpent" = none := by simp [getProp]
  cases hrun : getProp s.activeTimers (toKey taskId) with
  | none =>
    rw [completeTask_idle iso s taskId n hrun, findTask_updateTask s taskId _ hU, htask]
    refine ⟨_, rfl, readProp_spread_of_some _ _ _ _ hS, readProp_spread_of_some _ _ _ _ hC,
      hrun, ?_, ?_⟩
    · intro timer k h
      cases h
    · intro _
      exact readProp_spread_of_none _ _ _ hT
  | some timer =>
    obtain ⟨mid, hmid, hspent, _, hgone, _⟩ :=
      stopTimer_spec_aux s taskId n timer task hrun htask
    rw [completeTask_running iso s taskId n timer hrun,
      findTask_updateTask (stopTimer s taskId n) taskId _ hU, hmid]
    refine ⟨_, rfl, readProp_spread_of_some _ _ _ _ hS, readProp_spread_of_some _ _ _ _ hC,
      hgone, ?_, ?_⟩
    · intro timer' k h hk
      injection h with h
      subst h
      rw [readProp_spread_of_none _ _ _ hT, hspent]
      rcases hk with h | ⟨h, hk0⟩
      · rw [h, addElapsed_num]
      · rw [hk0, addElapsed_falsy _ _ h]
    · intro h
      cases h

/-- C5 at a concrete state: a task with 300 seconds spent whose timer was
restarted at 1000 s and is completed 120 s later ends with 420 seconds. -/
theorem completeTask_spec_witness :
    timeSpentOf (completeTask isoDemo demoResumed (Val.str "a") 1120000) (Val.str "a")
      = some (Val.num 420) ∧
    ∃ task', findTask (completeTask isoDemo demoResumed (Val.str "a") 1120000) (Val.str "a")
        = some task' ∧
      readProp task' "status" = Val.str "completed" ∧
      readProp task' "completedAt" = Val.str (isoDemo 1120000) ∧
      getProp (completeTask isoDemo demoResumed (Val.str "a") 1120000).activeTimers
        (toKey (Val.str "a")) = none :=
  have h := completeTask_spec isoDemo demoResumed (Val.str "a") 1120000
    (spread (spread (spread demoTask
      [("status", Val.str "in-progress"), ("startedAt", Val.str (isoDemo 0))])
      [("timeSpent", Val.num 300), ("status", Val.str "paused")])
      [("status", Val.str "in-progress"), ("startedAt", Val.str (isoDemo 0))])
    (by decide)
  ⟨by decide, h.imp (fun _ hx => ⟨hx.1, hx.2.1, hx.2.2.1, hx.2.2.2.1⟩)⟩

/-- C7: `addTask (taskData)` at clock time `n` returns a task with status
`pending`, `timeSpent` 0, `createdAt` the time of the call, `startedAt` and
`completedAt` null, whatever `taskData` holds in these five fields; every
other field of `taskData` is copied; the new store is the old one with that
task appended at the end, so `getTasksByUser (taskData.assignedTo)` contains
it. -/
theorem addTask_spec (iso : Int → String) (s : State) (uuid : String) (taskData : Obj)
    (n : Int) :
    readProp (addTask iso s uuid taskData n).1 "status" = Val.str "pending" ∧
    readProp (addTask iso s uuid taskData n).1 "timeSpent" = Val.num 0 ∧
    readProp (addTask iso s uuid taskData n).1 "createdAt" = Val.str (iso n) ∧
    readProp (addTask iso s uuid taskData n).1 "startedAt" = Val.null ∧
    readProp (addTask iso s uuid taskData n).1 "completedAt" = Val.null ∧
    (∀ k v, k ∉ ["status", "timeSpent", "createdAt", "startedAt", "completedAt"] →
      getProp taskData k = some v → getProp (addTask iso s uuid taskData n).1 k = some v) ∧
    (addTask iso s uuid taskData n).2.tasks = s.tasks ++ [(addTask iso s uuid taskData n).1] ∧
    (addTask iso s uuid taskData n).1 ∈
      getTasksByUser (addTask iso s uuid taskData n).2 (readProp taskData "assignedTo") := by
  refine ⟨?_, ?_, ?_, ?_, ?_, ?_, rfl, ?_⟩
  · show readProp (newTask iso uuid taskData n) "status" = _
    rw [readProp_newTask]
    simp
  · show readProp (newTask iso uuid taskData n) "timeSpent" = _
    rw [readProp_newTask]
    simp
  · show readProp (newTask iso uuid taskData n) "createdAt" = _
    rw [readProp_newTask]
    simp
  · show readProp (newTask iso uuid taskData n) "startedAt" = _
    rw [readProp_newTask]
    simp
  · show readProp (newTask iso uuid taskData n) "completedAt" = _
    rw [readProp_newTask]
    simp
  · intro k v hk hv
    simp only [List.mem_cons, List.mem_singleton, List.not_mem_nil, or_false, not_or] at hk
    obtain ⟨h1, h2, h3, h4, h5⟩ := hk
    show getProp (newTask iso uuid taskData n) k = some v
    unfold newTask
    rw [getProp_setProp, if_neg (Ne.symm h5), getProp_setProp, if_neg (Ne.symm h4),
      getProp_setProp, if_neg (Ne.symm h3), getProp_setProp, if_neg (Ne.symm h2),
      getProp_setProp, if_neg (Ne.symm h1), getProp_spread, hv]
    rfl
  · show newTask iso uuid taskData n ∈
      List.filter (fun task => decide (readProp task "assignedTo" = readProp taskData "assignedTo"))
        (s.tasks ++ [newTask iso uuid taskData n])
    rw [List.mem_filter]
    refine ⟨List.mem_append_right _ (List.mem_singleton_self _), ?_⟩
    rw [readProp_newTask]
    simp [readProp, getProp_spread, getProp]

/-- C8: `updateTask (id, updates)` is a shallow merge. The store keeps its
length, and position by position: a task whose id is `id` is replaced by a
task in which every field named in `updates` has the value from `updates` and
every other field has its prior value; a task with another id stays as it is. -/
theorem updateTask_shallow_merge (s : State) (taskId : Val) (updates : Obj) :
    (updateTask s taskId updates).tasks.length = s.tasks.length ∧
    ∀ (i : Nat) (task : Obj), s.tasks[i]? = some task →
      ∃ task', (updateTask s taskId updates).tasks[i]? = some task' ∧
        (readProp task "id" = taskId →
          ∀ k, getProp task' k = (getProp updates k).or (getProp task k)) ∧
        (readProp task "id" ≠ taskId → task' = task) := by
  refine ⟨by simp [updateTask], ?_⟩
  intro i task hi
  refine ⟨if hasId taskId task then spread task updates else task, ?_, ?_, ?_⟩
  · simp [updateTask, List.getElem?_map, hi]
  · intro hid k
    have : hasId taskId task = true := by simp [hasId, hid]
    rw [if_pos this, getProp_spread]
  · intro hid
    have : ¬ (hasId taskId task = true) := by simp [hasId, hid]
    rw [if_neg this]

/-- C8 at a concrete store: the title of task "a" is replaced, the rest kept. -/
theorem updateTask_shallow_merge_witness :
    ∃ task', (updateTask demoStore (Val.str "a") [("title", Val.str "Edit report")]).tasks[0]?
        = some task' ∧
      (readProp demoTask "id" = Val.str "a" →
        ∀ k, getProp task' k
          = (getProp [("title", Val.str "Edit report")] k).or (getProp demoTask k)) ∧
      (readProp demoTask "id" ≠ Val.str "a" → task' = demoTask) :=
  (updateTask_shallow_merge demoStore (Val.str "a") [("title", Val.str "Edit report")]).2
    0 demoTask (by decide)

/-- C9: no state change on an absent id. When no task of the store carries
`id` and no handle exists for `id`, each of `updateTask`, `deleteTask`,
`startTimer`, `stopTimer` and `completeTask` returns the state it was given
(task list, handles and intervals). -/
theorem absent_id_no_change (iso : Int → String) (s : State) (taskId : Val) (updates : Obj)
    (n : Int)
    (habsent : ∀ t ∈ s.tasks, readProp t "id" ≠ taskId)
    (hidle : getProp s.activeTimers (toKey taskId) = none) :
    updateTask s taskId updates = s ∧
    deleteTask s taskId n = s ∧
    startTimer iso s taskId n = s ∧
    stopTimer s taskId n = s ∧
    completeTask iso s taskId n = s := by
  refine ⟨updateTask_absent s taskId updates habsent, ?_, ?_, stopTimerIn_idle s s taskId n hidle,
    ?_⟩
  · unfold deleteTask
    rw [hidle]
    have hf : s.tasks.filter (fun task => !hasId taskId task) = s.tasks := by
      rw [List.filter_eq_self]
      intro t ht
      simpa [hasId] using habsent t ht
    simp [hf]
  · unfold startTimer
    have hnone : s.tasks.find? (hasId taskId) = none := by
      rw [List.find?_eq_none]
      intro t ht
      simpa [hasId] using habsent t ht
    rw [hnone]
  · rw [completeTask_idle iso s taskId n hidle]
    exact updateTask_absent s taskId _ habsent

/-- C9 at a concrete state: the id "zzz" is not in the store. -/
theorem absent_id_no_change_witness :
    updateTask demoStore (Val.str "zzz") [("title", Val.str "x")] = demoStore ∧
    deleteTask demoStore (Val.str "zzz") 5 = demoStore ∧
    startTimer isoDemo demoStore (Val.str "zzz") 5 = demoStore ∧
    stopTimer demoStore (Val.str "zzz") 5 = demoStore ∧
    completeTask isoDemo demoStore (Val.str "zzz") 5 = demoStore :=
  absent_id_no_change isoDemo demoStore (Val.str "zzz") [("title", Val.str "x")] 5
    (by decide) (by decide)

/-- C10 (as stated, refuted): on the store holding task "a" only, `updateTask`
and `deleteTask` return the same value for the present id "a" and for the
absent id "zzz". -/
theorem notFound_not_reported :
    findTask demoStore (Val.str "a") = some demoTask ∧
    findTask demoStore (Val.str "zzz") = none ∧
    (callUpdateTask demoStore (Val.str "a") [("title", Val.str "x")]).1
      = (callUpdateTask demoStore (Val.str "zzz") [("title", Val.str "x")]).1 ∧
    (callDeleteTask demoStore (Val.str "a") 5).1
      = (callDeleteTask demoStore (Val.str "zzz") 5).1 := by
  decide

/-- C10 (amended): `updateTask` and `deleteTask` return `undefined` for every
id, present or absent; nothing is reported to the caller. -/
theorem update_delete_return_undefined (s : State) (taskId : Val) (updates : Obj) (n : Int) :
    (callUpdateTask s taskId updates).1 = Val.undefined ∧
    (callDeleteTask s taskId n).1 = Val.undefined ∧
    (callUpdateTask s taskId updates).2 = updateTask s taskId updates ∧
    (callDeleteTask s taskId n).2 = deleteTask s taskId n :=
  ⟨rfl, rfl, rfl, rfl⟩

/-! ## Steps: what an operation does to the task list -/

theorem stopTimer_tasks (s : State) (taskId : Val) (n : Int) :
    (stopTimer s taskId n).tasks = s.tasks.map (stopTask s taskId n) := by
  unfold stopTimer
  cases hrun : getProp s.activeTimers (toKey taskId) with
  | none =>
    rw [stopTimerIn_idle s s taskId n hrun]
    have : stopTask s taskId n = fun t => t := by
      funext t
      simp [stopTask, hrun]
    rw [this, List.map_id']
  | some timer =>
    rw [stopTimerIn_running s s taskId n timer hrun]
    have : stopTask s taskId n = fun t =>
        if hasId taskId t then
          spread t [("timeSpent",
            addElapsed (firstSpent s taskId) ((n - timer.startTime) / 1000)),
            ("status", Val.str "paused")]
        else t := by
      funext t
      simp [stopTask, hrun]
    rw [this]
    have hf : (s.tasks.find? (hasId taskId)).elim Val.undefined
        (fun t => readProp t "timeSpent") = firstSpent s taskId := by
      unfold firstSpent
      cases s.tasks.find? (hasId taskId) <;> rfl
    rw [hf]
    rfl

theorem deleteTask_tasks (s : State) (taskId : Val) (n : Int) :
    (deleteTask s taskId n).tasks = s.tasks.filter (fun task => !hasId taskId task) := by
  unfold deleteTask
  cases hrun : getProp s.activeTimers (toKey taskId) with
  | none => simp
  | some timer =>
    simp only [Option.isSome_some, if_true]
    rw [stopTimerIn_running s _ taskId n timer hrun]
    show ((updateTask _ taskId _).tasks) = _
    unfold updateTask
    simp only
    apply map_update_absent
    intro t ht
    have := (List.mem_filter.mp ht).2
    simpa using this

theorem hasId_stopTask (s : State) (taskId x : Val) (n : Int) (t : Obj) :
    hasId x (stopTask s taskId n t) = hasId x t := by
  unfold stopTask
  cases getProp s.activeTimers (toKey taskId) with
  | none => rfl
  | some timer =>
    simp only
    by_cases h : hasId taskId t = true
    · rw [if_pos h]
      exact hasId_spread x t _ (by simp [getProp])
    · rw [if_neg h]

theorem step_tasks (iso : Int → String) (s : State) (op : Op) (now : Int) :
    (step iso s op now).tasks
      = (survivors s op).map (stepTask iso s op now) ++ appended iso op now := by
  cases op with
  | addTask uuid taskData =>
    have h2 : stepTask iso s (Op.addTask uuid taskData) now = fun t => t := by
      funext t
      rfl
    simp only [step, survivors, appended, h2, List.map_id']
    rfl
  | deleteTask taskId =>
    have h2 : stepTask iso s (Op.deleteTask taskId) now = fun t => t := by
      funext t
      rfl
    simp only [step, survivors, appended, h2, List.map_id', List.append_nil]
    exact deleteTask_tasks s taskId now
  | startTimer taskId =>
    simp only [step, survivors, appended, List.append_nil]
    cases hf : s.tasks.find? (hasId taskId) with
    | none =>
      have h1 : startTimer iso s taskId now = s := by
        unfold startTimer
        rw [hf]
      have h2 : stepTask iso s (Op.startTimer taskId) now = fun t => t := by
        funext t
        simp [stepTask, hf]
      rw [h1, h2, List.map_id']
    | some task =>
      rw [startTimer_found iso s taskId now task hf]
      have h2 : stepTask iso s (Op.startTimer taskId) now = fun t =>
          if hasId taskId t then
            spread t [("status", Val.str "in-progress"),
              ("startedAt", orElse (readProp task "startedAt") (Val.str (iso now)))]
          else t := by
        funext t
        simp [stepTask, hf]
      rw [h2]
      rfl
  | tick handle =>
    simp only [step, survivors, appended, List.append_nil]
    unfold tick
    cases hf : s.intervals.find? (fun iv => decide (iv.handle = handle)) with
    | none =>
      have h2 : stepTask iso s (Op.tick handle) now = fun t => t := by
        funext t
        simp [stepTask, hf]
      rw [h2, List.map_id']
    | some iv =>
      have h2 : stepTask iso s (Op.tick handle) now = fun t =>
          if hasId iv.taskId t then
            setProp t "timeSpent"
              (addElapsed (readProp t "timeSpent") ((now - iv.startTime) / 1000))
          else t := by
        funext t
        simp [stepTask, hf]
      rw [h2]
  | stopTimer taskId =>
    simp only [step, survivors, appended, List.append_nil]
    rw [stopTimer_tasks]
    rfl
  | completeTask taskId =>
    simp only [step, survivors, appended, List.append_nil]
    have h2 : stepTask iso s (Op.completeTask taskId) now = fun t =>
        (fun u => if hasId taskId u then
          spread u [("status", Val.str "completed"), ("completedAt", Val.str (iso now))]
          else u) (stopTask s taskId now t) := by
      funext t
      rfl
    have h3 : s.tasks.map (fun t =>
        (fun u => if hasId taskId u then
          spread u [("status", Val.str "completed"), ("completedAt", Val.str (iso now))]
          else u) (stopTask s taskId now t))
        = (s.tasks.map (stopTask s taskId now)).map (fun u => if hasId taskId u then
          spread u [("status", Val.str "completed"), ("completedAt", Val.str (iso now))]
          else u) := by
      rw [List.map_map]
      rfl
    rw [h2, h3, ← stopTimer_tasks]
    cases hrun : getProp s.activeTimers (toKey taskId) with
    | none =>
      rw [completeTask_idle iso s taskId now hrun]
      have : stopTimer s taskId now = s := stopTimerIn_idle s s taskId now hrun
      rw [this]
      rfl
    | some timer =>
      rw [completeTask_running iso s taskId now timer hrun]
      rfl

theorem stopTimer_handle_gone (s : State) (taskId : Val) (n : Int) :
    getProp (stopTimer s taskId n).activeTimers (toKey taskId) = none := by
  unfold stopTimer
  cases hrun : getProp s.activeTimers (toKey taskId) with
  | none =>
    rw [stopTimerIn_idle s s taskId n hrun]
    exact hrun
  | some timer =>
    rw [stopTimerIn_running s s taskId n timer hrun]
    show getProp (deleteProp s.activeTimers (toKey taskId)) (toKey taskId) = none
    rw [getProp_deleteProp, if_pos rfl]

theorem completeTask_found (iso : Int → String) (s : State) (taskId : Val) (n : Int)
    (task : Obj) (htask : findTask s taskId = some task) :
    ∃ mid, findTask (completeTask iso s taskId n) taskId =
      some (spread mid [("status", Val.str "completed"), ("completedAt", Val.str (iso n))]) := by
  have hU : getProp [("status", Val.str "completed"), ("completedAt", Val.str (iso n))] "id"
      = none := by simp [getProp]
  cases hrun : getProp s.activeTimers (toKey taskId) with
  | none =>
    rw [completeTask_idle iso s taskId n hrun, findTask_updateTask s taskId _ hU, htask]
    exact ⟨task, rfl⟩
  | some timer =>
    obtain ⟨mid, hmid, _⟩ := stopTimer_spec_aux s taskId n timer task hrun htask
    rw [completeTask_running iso s taskId n timer hrun,
      findTask_updateTask (stopTimer s taskId n) taskId _ hU, hmid]
    exact ⟨mid, rfl⟩

/-! ## Deletion, repeated stops and repeated completion -/

/-- C11: `deleteTask (id)` removes the task and releases its timer. The store
afterwards is the old store without the tasks carrying `id`, the others
unchanged and in their order; no task with that id is found or returned by
`getTasksByUser`; `activeTimers` has no handle for `id`, and when a timer was
running for `id` its interval is cleared. -/
theorem deleteTask_removes (s : State) (taskId : Val) (n : Int) :
    (deleteTask s taskId n).tasks = s.tasks.filter (fun task => !hasId taskId task) ∧
    findTask (deleteTask s taskId n) taskId = none ∧
    (∀ userId, ∀ t ∈ getTasksByUser (deleteTask s taskId n) userId,
      readProp t "id" ≠ taskId) ∧
    getProp (deleteTask s taskId n).activeTimers (toKey taskId) = none ∧
    (∀ timer, getProp s.activeTimers (toKey taskId) = some timer →
      ∀ iv ∈ (deleteTask s taskId n).intervals, iv.handle ≠ timer.interval) := by
  have htasks := deleteTask_tasks s taskId n
  refine ⟨htasks, ?_, ?_, ?_, ?_⟩
  · unfold findTask
    rw [htasks, List.find?_eq_none]
    intro t ht
    have := (List.mem_filter.mp ht).2
    simpa using this
  · intro userId t ht
    unfold getTasksByUser at ht
    rw [htasks] at ht
    have h1 := (List.mem_filter.mp (List.mem_filter.mp ht).1).2
    simpa [hasId] using h1
  · unfold deleteTask
    cases hrun : getProp s.activeTimers (toKey taskId) with
    | none => simpa using hrun
    | some timer =>
      simp only [Option.isSome_some, if_true]
      rw [stopTimerIn_running s _ taskId n timer hrun]
      show getProp (deleteProp s.activeTimers (toKey taskId)) (toKey taskId) = none
      rw [getProp_deleteProp, if_pos rfl]
  · intro timer hrun iv hiv
    unfold deleteTask at hiv
    rw [hrun] at hiv
    simp only [Option.isSome_some, if_true] at hiv
    rw [stopTimerIn_running s _ taskId n timer hrun] at hiv
    have h2 : iv ∈ s.intervals.filter (fun iv => decide (iv.handle ≠ timer.interval)) := hiv
    simpa using (List.mem_filter.mp h2).2

theorem readTimer_ordinary (timers : List (String × Timer)) (key : String)
    (hkey : key ∉ protoKeys) :
    readTimer timers key =
      match getProp timers key with
      | some timer => TimerRead.own timer
      | none => TimerRead.missing := by
  unfold readTimer
  cases getProp timers key with
  | some timer => rfl
  | none => simp [hkey]

/-- On every key that is not the name of an inherited member, and on every key
with an own handle, the full lookup and the own-entry lookup give the same
`stopTimer`. -/
theorem stopTimerFull_eq_stopTimer (nan : Val) (s : State) (taskId : Val) (n : Int)
    (h : toKey taskId ∉ protoKeys ∨ (getProp s.activeTimers (toKey taskId)).isSome = true) :
    stopTimerFull nan s taskId n = stopTimer s taskId n := by
  unfold stopTimerFull stopTimerFullIn stopTimer stopTimerIn readTimer
  cases hget : getProp s.activeTimers (toKey taskId) with
  | some timer => rfl
  | none =>
    rcases h with h | h
    · simp [h]
    · rw [hget] at h
      cases h

/-- For every key that is not the name of an inherited member, `stopTimer` with
the full lookup is idempotent: without a handle it returns the state unchanged,
and a second call changes nothing after the first. -/
theorem stopTimerFull_idempotent_ordinary (nan : Val) (s : State) (taskId : Val) (n m : Int)
    (hkey : toKey taskId ∉ protoKeys) :
    (getProp s.activeTimers (toKey taskId) = none → stopTimerFull nan s taskId n = s) ∧
    stopTimerFull nan (stopTimerFull nan s taskId n) taskId m = stopTimerFull nan s taskId n := by
  constructor
  · intro hidle
    rw [stopTimerFull_eq_stopTimer nan s taskId n (Or.inl hkey)]
    exact stopTimerIn_idle s s taskId n hidle
  · rw [stopTimerFull_eq_stopTimer nan s taskId n (Or.inl hkey),
      stopTimerFull_eq_stopTimer nan _ taskId m (Or.inl hkey)]
    exact stopTimerIn_idle _ _ taskId m (stopTimer_handle_gone s taskId n)

/-- C12 (defect in the code): stop is not idempotent on an id that names an
inherited member of `activeTimers`. The store `demoProto` holds one pending
task with the id `toString` and no handle, yet `stopTimer ("toString")` sets the
task to `paused` and writes `NaN` into `timeSpent`, where the store should stay
as it is. And after a real run of that task (started at 0 ms, stopped at 300 s,
`timeSpent = 300`, handle removed) a second `stopTimer ("toString")` replaces
the 300 by `NaN`, where it should change nothing. -/
theorem stopTimer_inherited_key_not_idempotent (nan : Val) :
    (readProp (demoProto.tasks.headD []) "id" = Val.str "toString" ∧
      statusOf demoProto (Val.str "toString") = some (Val.str "pending") ∧
      timeSpentOf demoProto (Val.str "toString") = some (Val.num 0) ∧
      getProp demoProto.activeTimers (toKey (Val.str "toString")) = none ∧
      readTimer demoProto.activeTimers (toKey (Val.str "toString")) = TimerRead.inherited ∧
      statusOf (stopTimerFull nan demoProto (Val.str "toString") 1000) (Val.str "toString")
        = some (Val.str "paused") ∧
      timeSpentOf (stopTimerFull nan demoProto (Val.str "toString") 1000) (Val.str "toString")
        = some nan) ∧
    (getProp demoProtoRunning.activeTimers (toKey (Val.str "toString"))
        = some { interval := 0, startTime := 0 } ∧
      timeSpentOf (stopTimerFull nan demoProtoRunning (Val.str "toString") 300000)
        (Val.str "toString") = some (Val.num 300) ∧
      getProp (stopTimerFull nan demoProtoRunning (Val.str "toString") 300000).activeTimers
        (toKey (Val.str "toString")) = none ∧
      timeSpentOf
        (stopTimerFull nan
          (stopTimerFull nan demoProtoRunning (Val.str "toString") 300000)
          (Val.str "toString") 400000)
        (Val.str "toString") = some nan) :=
  ⟨⟨by decide, by decide, by decide, by decide, by decide, rfl, rfl⟩,
   ⟨by decide, rfl, rfl, rfl⟩⟩

/-- C16 (as stated, refuted): task "a" was completed at 1 s; a further
`completeTask ("a")` at 2 s replaces `completedAt`. -/
theorem completeTask_again_overwrites :
    statusOf demoDone (Val.str "a") = some (Val.str "completed") ∧
    (findTask demoDone (Val.str "a")).map (fun t => readProp t "completedAt")
      = some (Val.str "T1000") ∧
    (findTask (completeTask isoDemo demoDone (Val.str "a") 2000) (Val.str "a")).map
      (fun t => readProp t "completedAt") = some (Val.str "T2000") := by
  decide

/-- C16 (amended): `completeTask (id)` does not look at the status. On a task
that is already completed, with `completedAt = c`, a further call at clock
time `n` keeps the status `completed` and writes the time of the call into
`completedAt`; the old value survives only when it equals the new one. -/
theorem completeTask_completed (iso : Int → String) (s : State) (taskId : Val) (n : Int)
    (task : Obj) (c : Val)
    (htask : findTask s taskId = some task)
    (hdone : readProp task "status" = Val.str "completed")
    (hc : readProp task "completedAt" = c) :
    statusOf s taskId = some (Val.str "completed") ∧
    ∃ task', findTask (completeTask iso s taskId n) taskId = some task' ∧
      readProp task' "status" = Val.str "completed" ∧
      readProp task' "completedAt" = Val.str (iso n) ∧
      (readProp task' "completedAt" = readProp task "completedAt" ↔ c = Val.str (iso n)) := by
  obtain ⟨mid, hmid⟩ := completeTask_found iso s taskId n task htask
  have h1 : readProp (spread mid
      [("status", Val.str "completed"), ("completedAt", Val.str (iso n))]) "completedAt"
      = Val.str (iso n) :=
    readProp_spread_of_some _ _ "completedAt" (Val.str (iso n)) (by simp [getProp])
  refine ⟨?_, _, hmid, ?_, h1, ?_⟩
  · unfold statusOf
    rw [htask]
    simp [hdone]
  · exact readProp_spread_of_some _ _ "status" (Val.str "completed") (by simp [getProp])
  · rw [h1, hc]
    exact ⟨fun h => h.symm, fun h => h.symm⟩

/-- C16 (amended) on the completed task "a", completed again at 2 s. -/
theorem completeTask_completed_witness :
    statusOf demoDone (Val.str "a") = some (Val.str "completed") ∧
    ∃ task', findTask (completeTask isoDemo demoDone (Val.str "a") 2000) (Val.str "a")
        = some task' ∧
      readProp task' "status" = Val.str "completed" ∧
      readProp task' "completedAt" = Val.str (isoDemo 2000) ∧
      (readProp task' "completedAt" = readProp
          (spread demoTask
            [("status", Val.str "completed"), ("completedAt", Val.str (isoDemo 1000))])
          "completedAt" ↔ Val.str "T1000" = Val.str (isoDemo 2000)) :=
  completeTask_completed isoDemo demoDone (Val.str "a") 2000
    (spread demoTask [("status", Val.str "completed"), ("completedAt", Val.str (isoDemo 1000))])
    (Val.str "T1000") (by decide) (by decide) (by decide)

/-! ## Statistics and projections -/

theorem length_by_status (l : List Obj)
    (h : ∀ t ∈ l, readProp t "status" = Val.str "pending" ∨
      readProp t "status" = Val.str "in-progress" ∨
      readProp t "status" = Val.str "completed" ∨
      readProp t "status" = Val.str "paused") :
    l.length =
      (l.filter (fun t => decide (readProp t "status" = Val.str "pending"))).length +
      (l.filter (fun t => decide (readProp t "status" = Val.str "in-progress"))).length +
      (l.filter (fun t => decide (readProp t "status" = Val.str "completed"))).length +
      (l.filter (fun t => decide (readProp t "status" = Val.str "paused"))).length := by
  induction l with
  | nil => rfl
  | cons t l ih =>
    have ih' := ih (fun x hx => h x (List.mem_cons_of_mem _ hx))
    rcases h t (List.mem_cons_self _ _) with h1 | h1 | h1 | h1 <;>
      simp [List.filter_cons, h1] <;> omega

theorem filter_disjoint_length (l : List Obj) (p q : Obj → Bool)
    (h : ∀ t, p t = true → q t = false) :
    (l.filter p).length + (l.filter q).length ≤ l.length := by
  induction l with
  | nil => simp
  | cons t l ih =>
    by_cases hp : p t = true
    · have hq := h t hp
      simp only [List.filter_cons, hp, hq, if_true, List.length_cons]
      simp
      omega
    · by_cases hq : q t = true
      · simp only [List.filter_cons, hp, hq, if_true, List.length_cons]
        simp
        omega
      · simp only [List.filter_cons, hp, hq, List.length_cons]
        simp
        omega

theorem isOverdue_iff (parseDate : String → Option Int) (now : Int) (t : Obj) :
    isOverdue parseDate now t = true ↔
      readProp t "status" ≠ Val.str "completed" ∧
      ∃ d, timeValue parseDate (readProp t "deadline") = some d ∧ d < now := by
  unfold isOverdue dateBefore
  cases hd : timeValue parseDate (readProp t "deadline") with
  | none => simp
  | some d => simp

/-- C17: statistics are a partition by status. When every task of the store
has one of the four statuses, `total` is the sum of `pending`, `inProgress`,
`completed` and the number of the user's paused tasks, and `total` is the
length of `getTasksByUser (userId)`. -/
theorem stats_partition (parseDate : String → Option Int) (s : State) (userId : Val)
    (now : Int)
    (hstatus : ∀ t ∈ s.tasks, readProp t "status" = Val.str "pending" ∨
      readProp t "status" = Val.str "in-progress" ∨
      readProp t "status" = Val.str "completed" ∨
      readProp t "status" = Val.str "paused") :
    (getTaskStats parseDate s userId now).total =
      (getTaskStats parseDate s userId now).pending +
      (getTaskStats parseDate s userId now).inProgress +
      (getTaskStats parseDate s userId now).completed +
      ((getTasksByUser s userId).filter
        (fun t => decide (readProp t "status" = Val.str "paused"))).length ∧
    (getTaskStats parseDate s userId now).total = (getTasksByUser s userId).length := by
  refine ⟨?_, rfl⟩
  show (getTasksByUser s userId).length = _
  exact length_by_status (getTasksByUser s userId)
    (fun t ht => hstatus t (List.mem_filter.mp ht).1)

/-- C17 on the store after a first run and a restart of task "a". -/
theorem stats_partition_witness :
    (getTaskStats parseDemo demoResumed (Val.str "u1") 0).total =
      (getTaskStats parseDemo demoResumed (Val.str "u1") 0).pending +
      (getTaskStats parseDemo demoResumed (Val.str "u1") 0).inProgress +
      (getTaskStats parseDemo demoResumed (Val.str "u1") 0).completed +
      ((getTasksByUser demoResumed (Val.str "u1")).filter
        (fun t => decide (readProp t "status" = Val.str "paused"))).length ∧
    (getTaskStats parseDemo demoResumed (Val.str "u1") 0).total
      = (getTasksByUser demoResumed (Val.str "u1")).length :=
  stats_partition parseDemo demoResumed (Val.str "u1") 0 (by decide)

/-- C18: overdue correctness. A task is counted as overdue exactly when its
status is not `completed` and its deadline has a time value strictly before
the clock reading; `overdue` is the number of such tasks among the user's
tasks; a completed task is never counted, a task whose deadline equals the
clock reading is not counted, and `overdue ≤ total - completed`. -/
theorem overdue_correct (parseDate : String → Option Int) (s : State) (userId : Val)
    (now : Int) :
    (∀ t, isOverdue parseDate now t = true ↔
      readProp t "status" ≠ Val.str "completed" ∧
      ∃ d, timeValue parseDate (readProp t "deadline") = some d ∧ d < now) ∧
    (getTaskStats parseDate s userId now).overdue
      = List.countP (isOverdue parseDate now) (getTasksByUser s userId) ∧
    (∀ t, readProp t "status" = Val.str "completed" → isOverdue parseDate now t = false) ∧
    (∀ t, timeValue parseDate (readProp t "deadline") = some now →
      isOverdue parseDate now t = false) ∧
    (getTaskStats parseDate s userId now).overdue
      ≤ (getTaskStats parseDate s userId now).total
        - (getTaskStats parseDate s userId now).completed := by
  refine ⟨isOverdue_iff parseDate now, ?_, ?_, ?_, ?_⟩
  · show ((getTasksByUser s userId).filter (isOverdue parseDate now)).length = _
    rw [List.countP_eq_length_filter]
  · intro t ht
    simp [isOverdue, ht]
  · intro t ht
    simp [isOverdue, dateBefore, ht]
  · have h := filter_disjoint_length (getTasksByUser s userId) (isOverdue parseDate now)
      (fun t => decide (readProp t "status" = Val.str "completed"))
      (fun t ht => by
        have := ((isOverdue_iff parseDate now t).mp ht).1
        simpa using this)
    show ((getTasksByUser s userId).filter (isOverdue parseDate now)).length
      ≤ (getTasksByUser s userId).length
        - ((getTasksByUser s userId).filter
            (fun t => decide (readProp t "status" = Val.str "completed"))).length
    omega

/-- C19: `getTasksByUser (userId)` returns exactly the tasks of the store whose
`assignedTo` is `userId`, in store order and with the multiplicity they have
in the store. -/
theorem getTasksByUser_spec (s : State) (userId : Val) :
    (∀ t, t ∈ getTasksByUser s userId ↔ t ∈ s.tasks ∧ readProp t "assignedTo" = userId) ∧
    (getTasksByUser s userId).Sublist s.tasks ∧
    (∀ t, readProp t "assignedTo" = userId →
      (getTasksByUser s userId).count t = s.tasks.count t) := by
  refine ⟨?_, ?_, ?_⟩
  · intro t
    unfold getTasksByUser
    rw [List.mem_filter]
    simp
  · exact List.filter_sublist _
  · intro t ht
    unfold getTasksByUser
    exact List.count_filter (by simpa using ht)

theorem remaining_ne_overdue (pre : String) : pre ++ " remaining" ≠ "Overdue" := by
  intro h
  have hlen := congrArg String.length h
  rw [String.length_append] at hlen
  have h1 : " remaining".length = 10 := by decide
  have h2 : "Overdue".length = 7 := by decide
  omega

theorem remaining_forms (a b : Int) :
    (∃ pre, toString a ++ "d " ++ toString b ++ "h remaining" = pre ++ " remaining") ∧
    (∃ pre, toString a ++ "h " ++ toString b ++ "m remaining" = pre ++ " remaining") ∧
    (∃ pre, toString b ++ "m remaining" = pre ++ " remaining") := by
  have hh : "h remaining" = "h" ++ " remaining" := by decide
  have hm : "m remaining" = "m" ++ " remaining" := by decide
  refine ⟨⟨toString a ++ "d " ++ toString b ++ "h", ?_⟩,
    ⟨toString a ++ "h " ++ toString b ++ "m", ?_⟩, ⟨toString b ++ "m", ?_⟩⟩
  · rw [hh, String.append_assoc (toString a ++ "d " ++ toString b)]
  · rw [hm, String.append_assoc (toString a ++ "h " ++ toString b)]
  · rw [hm, String.append_assoc]

theorem getTimeRemaining_future (parseDate : String → Option Int) (deadline : Val)
    (now d : Int) (hd : timeValue parseDate deadline = some d) (hlt : now < d) :
    ∃ pre, getTimeRemaining parseDate deadline now = pre ++ " remaining" := by
  unfold getTimeRemaining
  rw [hd]
  have hneg : ¬ (d - now ≤ 0) := by omega
  simp only [hneg, if_false]
  split_ifs
  · exact (remaining_forms _ _).1
  · exact (remaining_forms _ _).2.1
  · exact (remaining_forms 0 _).2.2

/-- C20: `getTimeRemaining (deadline)` returns `'Overdue'` exactly when the
deadline has a time value that is at most the clock reading; for every
deadline strictly after the clock reading, even by one millisecond, the
result ends in `' remaining'`. -/
theorem getTimeRemaining_overdue_iff (parseDate : String → Option Int) (deadline : Val)
    (now : Int) :
    (getTimeRemaining parseDate deadline now = "Overdue" ↔
      ∃ d, timeValue parseDate deadline = some d ∧ d ≤ now) ∧
    (∀ d, timeValue parseDate deadline = some d → now < d →
      ∃ pre, getTimeRemaining parseDate deadline now = pre ++ " remaining") := by
  refine ⟨?_, fun d hd hlt => getTimeRemaining_future parseDate deadline now d hd hlt⟩
  cases hd : timeValue parseDate deadline with
  | none =>
    have h1 : getTimeRemaining parseDate deadline now = "NaNm remaining" := by
      unfold getTimeRemaining
      rw [hd]
    rw [h1]
    constructor
    · intro h
      exact absurd h (by decide)
    · rintro ⟨d, h, _⟩
      cases h
  | some d =>
    by_cases hle : d ≤ now
    · have h1 : getTimeRemaining parseDate deadline now = "Overdue" := by
        unfold getTimeRemaining
        rw [hd]
        have : d - now ≤ 0 := by omega
        simp only [this, if_true]
      rw [h1]
      exact ⟨fun _ => ⟨d, rfl, hle⟩, fun _ => rfl⟩
    · obtain ⟨pre, hpre⟩ :=
        getTimeRemaining_future parseDate deadline now d hd (by omega)
      rw [hpre]
      constructor
      · intro h
        exact absurd h (remaining_ne_overdue pre)
      · rintro ⟨d', h, hle'⟩
        injection h with h
        omega

/-! ## Invariants of reachable states -/

theorem readProp_spread (a b : Obj) (k : String) :
    readProp (spread a b) k = (getProp b k).getD (readProp a k) := by
  unfold readProp
  rw [getProp_spread]
  cases getProp b k <;> rfl

theorem survivors_subset (s : State) (op : Op) (t : Obj) (h : t ∈ survivors s op) :
    t ∈ s.tasks := by
  cases op <;> first
    | exact h
    | exact (List.mem_filter.mp h).1

theorem step_getElem (iso : Int → String) (s : State) (op : Op) (now : Int) (i : Nat)
    (t : Obj) (h : (survivors s op)[i]? = some t) :
    (step iso s op now).tasks[i]? = some (stepTask iso s op now t) := by
  have hi : i < (survivors s op).length := (List.getElem?_eq_some.mp h).1
  rw [step_tasks, List.getElem?_append_left (by simpa using hi), List.getElem?_map, h]
  rfl

/-- The shapes a surviving task can take after one operation. -/
theorem stepTask_cases (iso : Int → String) (s : State) (op : Op) (now : Int) (t : Obj) :
    stepTask iso s op now t = t ∨
    (∃ a, stepTask iso s op now t = spread t [("status", Val.str "in-progress"),
      ("startedAt", orElse a (Val.str (iso now)))]) ∨
    (∃ v, stepTask iso s op now t = setProp t "timeSpent" v) ∨
    (∃ v, stepTask iso s op now t = spread t [("timeSpent", v), ("status", Val.str "paused")]) ∨
    stepTask iso s op now t
      = spread t [("status", Val.str "completed"), ("completedAt", Val.str (iso now))] ∨
    (∃ v, stepTask iso s op now t
      = spread (spread t [("timeSpent", v), ("status", Val.str "paused")])
          [("status", Val.str "completed"), ("completedAt", Val.str (iso now))]) := by
  have hstop : ∀ taskId, stopTask s taskId now t = t ∨
      ∃ v, stopTask s taskId now t
        = spread t [("timeSpent", v), ("status", Val.str "paused")] := by
    intro taskId
    cases hrun : getProp s.activeTimers (toKey taskId) with
    | none => exact Or.inl (by simp [stopTask, hrun])
    | some timer =>
      by_cases h : hasId taskId t = true
      · exact Or.inr ⟨addElapsed (firstSpent s taskId) ((now - timer.startTime) / 1000),
          by simp [stopTask, hrun, h]⟩
      · exact Or.inl (by simp [stopTask, hrun, h])
  cases op with
  | addTask uuid taskData => exact Or.inl rfl
  | deleteTask taskId => exact Or.inl rfl
  | startTimer taskId =>
    cases hf : s.tasks.find? (hasId taskId) with
    | none => exact Or.inl (by simp [stepTask, hf])
    | some task =>
      by_cases h : hasId taskId t = true
      · exact Or.inr (Or.inl ⟨readProp task "startedAt", by simp [stepTask, hf, h]⟩)
      · exact Or.inl (by simp [stepTask, hf, h])
  | tick handle =>
    cases hf : s.intervals.find? (fun iv => decide (iv.handle = handle)) with
    | none => exact Or.inl (by simp [stepTask, hf])
    | some iv =>
      by_cases h : hasId iv.taskId t = true
      · exact Or.inr (Or.inr (Or.inl
          ⟨addElapsed (readProp t "timeSpent") ((now - iv.startTime) / 1000),
            by simp [stepTask, hf, h]⟩))
      · exact Or.inl (by simp [stepTask, hf, h])
  | stopTimer taskId =>
    rcases hstop taskId with h | ⟨v, h⟩
    · exact Or.inl h
    · exact Or.inr (Or.inr (Or.inr (Or.inl ⟨v, h⟩)))
  | completeTask taskId =>
    have hid := hasId_stopTask s taskId taskId now t
    by_cases h : hasId taskId t = true
    · have e : stepTask iso s (Op.completeTask taskId) now t
          = spread (stopTask s taskId now t)
            [("status", Val.str "completed"), ("completedAt", Val.str (iso now))] := by
        show (if hasId taskId (stopTask s taskId now t) = true then _ else _) = _
        rw [hid, if_pos h]
      rcases hstop taskId with h1 | ⟨v, h1⟩
      · rw [h1] at e
        exact Or.inr (Or.inr (Or.inr (Or.inr (Or.inl e))))
      · rw [h1] at e
        exact Or.inr (Or.inr (Or.inr (Or.inr (Or.inr ⟨v, e⟩))))
    · have e : stepTask iso s (Op.completeTask taskId) now t = stopTask s taskId now t := by
        show (if hasId taskId (stopTask s taskId now t) = true then _ else _) = _
        rw [hid, if_neg h]
      have e2 : stopTask s taskId now t = t := by
        cases hrun : getProp s.activeTimers (toKey taskId) with
        | none => simp [stopTask, hrun]
        | some timer => simp [stopTask, hrun, h]
      exact Or.inl (e.trans e2)

/-- A property of single tasks that `addTask` establishes and every operation
preserves holds for all tasks of every reachable state. -/
theorem reachable_forall (iso : Int → String) (P : Obj → Prop)
    (hnew : ∀ uuid taskData now, P (newTask iso uuid taskData now))
    (hstep : ∀ s op now t, P t → P (stepTask iso s op now t))
    (s : State) (hs : Reachable iso s) : ∀ t ∈ s.tasks, P t := by
  induction hs with
  | init =>
    intro t ht
    cases ht
  | step s op now _ ih =>
    intro t ht
    rw [step_tasks, List.mem_append] at ht
    rcases ht with ht | ht
    · obtain ⟨t0, ht0, rfl⟩ := List.mem_map.mp ht
      exact hstep s op now t0 (ih t0 (survivors_subset s op t0 ht0))
    · cases op with
      | addTask uuid taskData =>
        have : t = newTask iso uuid taskData now := by simpa [appended] using ht
        rw [this]
        exact hnew uuid taskData now
      | startTimer taskId => simp [appended] at ht
      | tick handle => simp [appended] at ht
      | stopTimer taskId => simp [appended] at ht
      | completeTask taskId => simp [appended] at ht
      | deleteTask taskId => simp [appended] at ht

theorem isSet_orElse_str (a : Val) (x : String) : isSet (orElse a (Val.str x)) = true := by
  unfold orElse
  by_cases h : truthy a = true
  · rw [if_pos h]
    cases a <;> simp_all [truthy, isSet]
  · rw [if_neg h]
    rfl

/-- C14 (as stated, refuted): after `addTask`, `completeTask ("a")` and
`startTimer ("a")` the only task is `in-progress` and still has the
`completedAt` written at completion. -/
theorem completedAt_outlives_completed :
    Reachable isoDemo demoRevived ∧
    demoRevived.tasks.map (fun t => (readProp t "status", readProp t "completedAt"))
      = [(Val.str "in-progress", Val.str "T1000")] :=
  ⟨Reachable.step _ _ _ (Reachable.step _ _ _ (Reachable.step _ _ _ Reachable.init)),
   by decide⟩

/-- C14 (amended): in every reachable state each task whose status is
`completed` has `completedAt` set, and a task with `completedAt` set is not
`pending`. -/
theorem completed_has_completedAt (iso : Int → String) (s : State)
    (hs : Reachable iso s) :
    ∀ t ∈ s.tasks,
      (readProp t "status" = Val.str "completed" → isSet (readProp t "completedAt") = true) ∧
      (isSet (readProp t "completedAt") = true → readProp t "status" ≠ Val.str "pending") := by
  refine reachable_forall iso (fun t =>
    (readProp t "status" = Val.str "completed" → isSet (readProp t "completedAt") = true) ∧
    (isSet (readProp t "completedAt") = true → readProp t "status" ≠ Val.str "pending"))
    ?_ ?_ s hs
  · intro uuid taskData now
    beta_reduce
    rw [readProp_newTask, readProp_newTask]
    simp [isSet]
  · intro s op now t ht
    beta_reduce at ht ⊢
    rcases stepTask_cases iso s op now t with h | ⟨a, h⟩ | ⟨v, h⟩ | ⟨v, h⟩ | h | ⟨v, h⟩
    · rw [h]
      exact ht
    · rw [h]
      simp only [readProp_spread, getProp]
      simp
    · rw [h]
      simp only [readProp_setProp]
      simpa using ht
    · rw [h]
      simp only [readProp_spread, getProp]
      simp
    · rw [h]
      simp [readProp_spread, getProp, isSet]
    · rw [h]
      simp [readProp_spread, getProp, isSet]

/-- C14 (amended) on the run `addTask`, `completeTask`, `startTimer`, at its
only task. -/
theorem completed_has_completedAt_witness :
    demoRevived.tasks.headD [] ∈ demoRevived.tasks ∧
    (readProp (demoRevived.tasks.headD []) "status" = Val.str "completed" →
      isSet (readProp (demoRevived.tasks.headD []) "completedAt") = true) ∧
    (isSet (readProp (demoRevived.tasks.headD []) "completedAt") = true →
      readProp (demoRevived.tasks.headD []) "status" ≠ Val.str "pending") :=
  ⟨by decide,
   completed_has_completedAt isoDemo demoRevived
    (Reachable.step _ _ _ (Reachable.step _ _ _ (Reachable.step _ _ _ Reachable.init)))
    (demoRevived.tasks.headD []) (by decide)⟩

/-- C15 (as stated, refuted): a second task added under the id "a" while the
timer of "a" runs is paused by `stopTimer ("a")` although it was never in
progress: it is `paused` with `startedAt` null. -/
theorem paused_without_startedAt :
    Reachable isoDemo demoShared ∧
    demoShared.tasks.map (fun t => (readProp t "status", readProp t "startedAt"))
      = [(Val.str "paused", Val.str "T0"), (Val.str "paused", Val.null)] :=
  ⟨Reachable.step _ _ _ (Reachable.step _ _ _ (Reachable.step _ _ _
    (Reachable.step _ _ _ Reachable.init))),
   by decide⟩

/-- C15 (amended): in every reachable state a `pending` task has `startedAt`
null and an `in-progress` task has `startedAt` set; and across every
operation, for every task that stays in the store (same position among the
survivors), `startedAt` stays set once it is set, and it becomes set only in
an operation that leaves the task `in-progress`. -/
theorem startedAt_tracks_inProgress (iso : Int → String) (s : State)
    (hs : Reachable iso s) :
    (∀ t ∈ s.tasks,
      (readProp t "status" = Val.str "pending" → readProp t "startedAt" = Val.null) ∧
      (readProp t "status" = Val.str "in-progress" →
        isSet (readProp t "startedAt") = true)) ∧
    (∀ (op : Op) (now : Int) (i : Nat) (t : Obj), (survivors s op)[i]? = some t →
      ∃ t', (step iso s op now).tasks[i]? = some t' ∧
        (isSet (readProp t "startedAt") = true → isSet (readProp t' "startedAt") = true) ∧
        (isSet (readProp t "startedAt") = false → isSet (readProp t' "startedAt") = true →
          readProp t' "status" = Val.str "in-progress")) := by
  constructor
  · refine reachable_forall iso (fun t =>
      (readProp t "status" = Val.str "pending" → readProp t "startedAt" = Val.null) ∧
      (readProp t "status" = Val.str "in-progress" →
        isSet (readProp t "startedAt") = true)) ?_ ?_ s hs
    · intro uuid taskData now
      beta_reduce
      rw [readProp_newTask, readProp_newTask]
      simp
    · intro s op now t ht
      beta_reduce at ht ⊢
      rcases stepTask_cases iso s op now t with h | ⟨a, h⟩ | ⟨v, h⟩ | ⟨v, h⟩ | h | ⟨v, h⟩
      · rw [h]
        exact ht
      · rw [h]
        simp only [readProp_spread, getProp]
        simp [isSet_orElse_str]
      · rw [h]
        simp only [readProp_setProp]
        simpa using ht
      · rw [h]
        simp [readProp_spread, getProp]
      · rw [h]
        simp [readProp_spread, getProp]
      · rw [h]
        simp [readProp_spread, getProp]
  · intro op now i t hi
    refine ⟨_, step_getElem iso s op now i t hi, ?_, ?_⟩
    · intro hset
      rcases stepTask_cases iso s op now t with h | ⟨a, h⟩ | ⟨v, h⟩ | ⟨v, h⟩ | h | ⟨v, h⟩
      · rw [h]
        exact hset
      · rw [h]
        simp [readProp_spread, getProp, isSet_orElse_str]
      · rw [h]
        simpa [readProp_setProp] using hset
      · rw [h]
        simpa [readProp_spread, getProp] using hset
      · rw [h]
        simpa [readProp_spread, getProp] using hset
      · rw [h]
        simpa [readProp_spread, getProp] using hset
    · intro hunset hset
      rcases stepTask_cases iso s op now t with h | ⟨a, h⟩ | ⟨v, h⟩ | ⟨v, h⟩ | h | ⟨v, h⟩
      · rw [h] at hset
        rw [hunset] at hset
        cases hset
      · rw [h]
        simp [readProp_spread, getProp]
      · rw [h] at hset
        simp only [readProp_setProp] at hset
        simp [hunset] at hset
      · rw [h] at hset
        simp [readProp_spread, getProp, hunset] at hset
      · rw [h] at hset
        simp [readProp_spread, getProp, hunset] at hset
      · rw [h] at hset
        simp [readProp_spread, getProp, hunset] at hset

/-- C15 (amended) on the store after `addTask` and `startTimer ("a")`: its
only task is `in-progress` with `startedAt` set. -/
theorem startedAt_tracks_inProgress_witness :
    demoRunning.tasks.headD [] ∈ demoRunning.tasks ∧
    readProp (demoRunning.tasks.headD []) "status" = Val.str "in-progress" ∧
    (readProp (demoRunning.tasks.headD []) "status" = Val.str "pending" →
      readProp (demoRunning.tasks.headD []) "startedAt" = Val.null) ∧
    (readProp (demoRunning.tasks.headD []) "status" = Val.str "in-progress" →
      isSet (readProp (demoRunning.tasks.headD []) "startedAt") = true) :=
  ⟨by decide, by decide,
   (startedAt_tracks_inProgress isoDemo demoRunning
    (Reachable.step
      (step isoDemo State.init
        (Op.addTask "a" [("title", Val.str "Write report"), ("assignedTo", Val.str "u1")]) 0)
      (Op.startTimer (Val.str "a")) 0
      (Reachable.step State.init
        (Op.addTask "a" [("title", Val.str "Write report"), ("assignedTo", Val.str "u1")]) 0
        Reachable.init))).1
    (demoRunning.tasks.headD []) (by decide)⟩

/-! ## Monotonicity of `timeSpent` -/

theorem readProp_id_stepTask (iso : Int → String) (s : State) (op : Op) (now : Int)
    (t : Obj) : readProp (stepTask iso s op now t) "id" = readProp t "id" := by
  rcases stepTask_cases iso s op now t with h | ⟨a, h⟩ | ⟨v, h⟩ | ⟨v, h⟩ | h | ⟨v, h⟩
  · rw [h]
  · rw [h]
    simp [readProp_spread, getProp]
  · rw [h]
    simp [readProp_setProp]
  · rw [h]
    simp [readProp_spread, getProp]
  · rw [h]
    simp [readProp_spread, getProp]
  · rw [h]
    simp [readProp_spread, getProp]

theorem hasId_stepTask (iso : Int → String) (s : State) (op : Op) (now : Int) (x : Val)
    (t : Obj) : hasId x (stepTask iso s op now t) = hasId x t := by
  unfold hasId
  rw [readProp_id_stepTask]

theorem stopTimer_timers (s : State) (taskId : Val) (n : Int) (key : String) (timer : Timer)
    (h : getProp (stopTimer s taskId n).activeTimers key = some timer) :
    getProp s.activeTimers key = some timer := by
  unfold stopTimer at h
  cases hrun : getProp s.activeTimers (toKey taskId) with
  | none =>
    rw [stopTimerIn_idle s s taskId n hrun] at h
    exact h
  | some tm =>
    rw [stopTimerIn_running s s taskId n tm hrun] at h
    have h2 : getProp (deleteProp s.activeTimers (toKey taskId)) key = some timer := h
    rw [getProp_deleteProp] at h2
    by_cases hk : toKey taskId = key
    · rw [if_pos hk] at h2
      cases h2
    · rw [if_neg hk] at h2
      exact h2

theorem stopTimer_intervals (s : State) (taskId : Val) (n : Int) (iv : Interval)
    (h : iv ∈ (stopTimer s taskId n).intervals) : iv ∈ s.intervals := by
  unfold stopTimer at h
  cases hrun : getProp s.activeTimers (toKey taskId) with
  | none =>
    rw [stopTimerIn_idle s s taskId n hrun] at h
    exact h
  | some tm =>
    rw [stopTimerIn_running s s taskId n tm hrun] at h
    have h2 : iv ∈ s.intervals.filter (fun iv => decide (iv.handle ≠ tm.interval)) := h
    exact (List.mem_filter.mp h2).1

theorem deleteTask_timers (s : State) (taskId : Val) (n : Int) (key : String) (timer : Timer)
    (h : getProp (deleteTask s taskId n).activeTimers key = some timer) :
    getProp s.activeTimers key = some timer := by
  unfold deleteTask at h
  cases hrun : getProp s.activeTimers (toKey taskId) with
  | none =>
    rw [hrun] at h
    exact h
  | some tm =>
    rw [hrun] at h
    simp only [Option.isSome_some, if_true] at h
    rw [stopTimerIn_running s _ taskId n tm hrun] at h
    have h2 : getProp (deleteProp s.activeTimers (toKey taskId)) key = some timer := h
    rw [getProp_deleteProp] at h2
    by_cases hk : toKey taskId = key
    · rw [if_pos hk] at h2
      cases h2
    · rw [if_neg hk] at h2
      exact h2

theorem deleteTask_intervals (s : State) (taskId : Val) (n : Int) (iv : Interval)
    (h : iv ∈ (deleteTask s taskId n).intervals) : iv ∈ s.intervals := by
  unfold deleteTask at h
  cases hrun : getProp s.activeTimers (toKey taskId) with
  | none =>
    rw [hrun] at h
    exact h
  | some tm =>
    rw [hrun] at h
    simp only [Option.isSome_some, if_true] at h
    rw [stopTimerIn_running s _ taskId n tm hrun] at h
    have h2 : iv ∈ s.intervals.filter (fun iv => decide (iv.handle ≠ tm.interval)) := h
    exact (List.mem_filter.mp h2).1

theorem step_timers (iso : Int → String) (s : State) (op : Op) (now : Int) (key : String)
    (timer : Timer) (h : getProp (step iso s op now).activeTimers key = some timer) :
    timer.startTime = now ∨ getProp s.activeTimers key = some timer := by
  cases op with
  | addTask uuid taskData => exact Or.inr h
  | tick handle =>
    have e : (tick s handle now).activeTimers = s.activeTimers := by
      unfold tick
      cases s.intervals.find? (fun iv => decide (iv.handle = handle)) <;> rfl
    have h2 : getProp (tick s handle now).activeTimers key = some timer := h
    rw [e] at h2
    exact Or.inr h2
  | stopTimer taskId => exact Or.inr (stopTimer_timers s taskId now key timer h)
  | deleteTask taskId => exact Or.inr (deleteTask_timers s taskId now key timer h)
  | completeTask taskId =>
    have h2 : getProp (completeTask iso s taskId now).activeTimers key = some timer := h
    cases hrun : getProp s.activeTimers (toKey taskId) with
    | none =>
      rw [completeTask_idle iso s taskId now hrun] at h2
      exact Or.inr h2
    | some tm =>
      rw [completeTask_running iso s taskId now tm hrun] at h2
      exact Or.inr (stopTimer_timers s taskId now key timer h2)
  | startTimer taskId =>
    have h2 : getProp (startTimer iso s taskId now).activeTimers key = some timer := h
    cases hf : s.tasks.find? (hasId taskId) with
    | none =>
      have e : startTimer iso s taskId now = s := by
        unfold startTimer
        rw [hf]
      rw [e] at h2
      exact Or.inr h2
    | some task =>
      rw [startTimer_found iso s taskId now task hf] at h2
      have h3 : getProp (setProp s.activeTimers (toKey taskId)
          { interval := s.nextInterval, startTime := now }) key = some timer := h2
      rw [getProp_setProp] at h3
      by_cases hk : toKey taskId = key
      · rw [if_pos hk] at h3
        injection h3 with h3
        exact Or.inl (by rw [← h3])
      · rw [if_neg hk] at h3
        exact Or.inr h3

theorem step_intervals (iso : Int → String) (s : State) (op : Op) (now : Int)
    (iv : Interval) (h : iv ∈ (step iso s op now).intervals) :
    iv.startTime = now ∨ iv ∈ s.intervals := by
  cases op with
  | addTask uuid taskData => exact Or.inr h
  | tick handle =>
    have e : (tick s handle now).intervals = s.intervals := by
      unfold tick
      cases s.intervals.find? (fun iv => decide (iv.handle = handle)) <;> rfl
    have h2 : iv ∈ (tick s handle now).intervals := h
    rw [e] at h2
    exact Or.inr h2
  | stopTimer taskId => exact Or.inr (stopTimer_intervals s taskId now iv h)
  | deleteTask taskId => exact Or.inr (deleteTask_intervals s taskId now iv h)
  | completeTask taskId =>
    have h2 : iv ∈ (completeTask iso s taskId now).intervals := h
    cases hrun : getProp s.activeTimers (toKey taskId) with
    | none =>
      rw [completeTask_idle iso s taskId now hrun] at h2
      exact Or.inr h2
    | some tm =>
      rw [completeTask_running iso s taskId now tm hrun] at h2
      exact Or.inr (stopTimer_intervals s taskId now iv h2)
  | startTimer taskId =>
    have h2 : iv ∈ (startTimer iso s taskId now).intervals := h
    cases hf : s.tasks.find? (hasId taskId) with
    | none =>
      have e : startTimer iso s taskId now = s := by
        unfold startTimer
        rw [hf]
      rw [e] at h2
      exact Or.inr h2
    | some task =>
      rw [startTimer_found iso s taskId now task hf] at h2
      have h3 : iv ∈ s.intervals ++
          [{ handle := s.nextInterval, taskId := taskId, startTime := now }] := h2
      rcases List.mem_append.mp h3 with h4 | h4
      · exact Or.inr h4
      · have : iv = { handle := s.nextInterval, taskId := taskId, startTime := now } := by
          simpa using h4
        exact Or.inl (by rw [this])

theorem spentNum_of_num (t : Obj) (k : Int) (h : readProp t "timeSpent" = Val.num k) :
    spentNum t = k := by
  unfold spentNum
  rw [h]

theorem spentShape_id (s : State) (c : Int) (hinv : SpentInv s c) :
    SpentShape s (fun t => t) := by
  refine ⟨Val.undefined, fun a => a, fun a b h => h, fun a h => h, fun t _ _ => le_refl _, ?_⟩
  intro t ht
  obtain ⟨k, hk, _⟩ := hinv.1 t ht
  rw [hk, spentNum_of_num t k hk]
  simp

theorem spentShape_congr (s : State) (f f' : Obj → Obj)
    (h : ∀ t ∈ s.tasks, readProp (f t) "timeSpent" = readProp (f' t) "timeSpent")
    (hf : SpentShape s f') : SpentShape s f := by
  obtain ⟨y, g, h1, h2, h3, h4⟩ := hf
  exact ⟨y, g, h1, h2, h3, fun t ht => (h t ht).trans (h4 t ht)⟩

theorem elapsed_nonneg (start c now : Int) (h1 : start ≤ c) (h2 : c ≤ now) :
    0 ≤ (now - start) / 1000 :=
  Int.ediv_nonneg (by omega) (by decide)

theorem spentShape_stopTask (s : State) (c : Int) (taskId : Val) (now : Int)
    (hinv : SpentInv s c) (hc : c ≤ now) : SpentShape s (stopTask s taskId now) := by
  cases hrun : getProp s.activeTimers (toKey taskId) with
  | none =>
    refine spentShape_congr s _ _ ?_ (spentShape_id s c hinv)
    intro t _
    simp [stopTask, hrun]
  | some timer =>
    have he := elapsed_nonneg timer.startTime c now (hinv.2.1 _ _ hrun) hc
    cases hf : s.tasks.find? (hasId taskId) with
    | none =>
      refine spentShape_congr s _ _ ?_ (spentShape_id s c hinv)
      intro t ht
      have hno : hasId taskId t = false := by
        have := List.find?_eq_none.mp hf t ht
        simpa using this
      simp [stopTask, hrun, hno]
    | some f0 =>
      have hf0mem : f0 ∈ s.tasks := List.mem_of_find?_eq_some hf
      obtain ⟨kf, hkf, hkf0⟩ := hinv.1 f0 hf0mem
      have hfirst : firstSpent s taskId = Val.num kf := by
        unfold firstSpent
        rw [hf]
        exact hkf
      refine ⟨taskId, fun _ => kf + (now - timer.startTime) / 1000,
        fun a b _ => le_refl _, fun a _ => by beta_reduce; omega, ?_, ?_⟩
      · intro t ht hid
        have := hinv.2.2.2 taskId f0 t hf ht hid
        rw [spentNum_of_num f0 kf hkf] at this
        show spentNum t ≤ kf + (now - timer.startTime) / 1000
        omega
      · intro t ht
        obtain ⟨k, hk, _⟩ := hinv.1 t ht
        by_cases hid : hasId taskId t = true
        · simp [stopTask, hrun, hid, hfirst, readProp_spread, getProp, addElapsed]
        · simp [stopTask, hrun, hid, hk, spentNum_of_num t k hk]

theorem spentShape_stepTask (iso : Int → String) (s : State) (c : Int) (op : Op) (now : Int)
    (hinv : SpentInv s c) (hc : c ≤ now) : SpentShape s (stepTask iso s op now) := by
  cases op with
  | addTask uuid taskData => exact spentShape_id s c hinv
  | deleteTask taskId => exact spentShape_id s c hinv
  | stopTimer taskId => exact spentShape_stopTask s c taskId now hinv hc
  | completeTask taskId =>
    refine spentShape_congr s _ _ ?_ (spentShape_stopTask s c taskId now hinv hc)
    intro t _
    show readProp (if hasId taskId (stopTask s taskId now t) = true then _ else _) _ = _
    split_ifs
    · simp [readProp_spread, getProp]
    · rfl
  | startTimer taskId =>
    refine spentShape_congr s _ _ ?_ (spentShape_id s c hinv)
    intro t _
    cases hf : s.tasks.find? (hasId taskId) with
    | none => simp [stepTask, hf]
    | some task =>
      by_cases hid : hasId taskId t = true
      · simp [stepTask, hf, hid, readProp_spread, getProp]
      · simp [stepTask, hf, hid]
  | tick handle =>
    cases hf : s.intervals.find? (fun iv => decide (iv.handle = handle)) with
    | none =>
      refine spentShape_congr s _ _ ?_ (spentShape_id s c hinv)
      intro t _
      simp [stepTask, hf]
    | some iv =>
      have hmem : iv ∈ s.intervals := List.mem_of_find?_eq_some hf
      have he := elapsed_nonneg iv.startTime c now (hinv.2.2.1 iv hmem) hc
      refine ⟨iv.taskId, fun a => a + (now - iv.startTime) / 1000,
        fun a b h => by beta_reduce; omega, fun a h => by beta_reduce; omega,
        fun t _ _ => by beta_reduce; omega, ?_⟩
      intro t ht
      obtain ⟨k, hk, _⟩ := hinv.1 t ht
      by_cases hid : hasId iv.taskId t = true
      · simp [stepTask, hf, hid, readProp_setProp, hk, addElapsed, spentNum_of_num t k hk]
      · simp [stepTask, hf, hid, hk, spentNum_of_num t k hk]

theorem find_filter_of_imp (l : List Obj) (p q : Obj → Bool)
    (h : ∀ a, q a = true → p a = true) : (l.filter p).find? q = l.find? q := by
  induction l with
  | nil => rfl
  | cons a l ih =>
    by_cases hp : p a = true
    · rw [List.filter_cons_of_pos hp, List.find?_cons, List.find?_cons, ih]
    · have hq : q a = false := by
        cases hqa : q a with
        | false => rfl
        | true => exact absurd (h a hqa) hp
      rw [List.filter_cons_of_neg hp, List.find?_cons, hq, ih]

theorem firstLeads_filter (l : List Obj) (y : Val) (hl : FirstLeads l) :
    FirstLeads (l.filter (fun t => !hasId y t)) := by
  intro x f t hfind ht hid
  have hfx : hasId x f = true := List.find?_some hfind
  have hfy : (!hasId y f) = true := (List.mem_filter.mp (List.mem_of_find?_eq_some hfind)).2
  have hxy : x ≠ y := by
    intro hxy
    rw [hxy] at hfx
    rw [hfx] at hfy
    cases hfy
  have himp : ∀ a, hasId x a = true → (!hasId y a) = true := by
    intro a ha
    have h1 : readProp a "id" = x := by simpa [hasId] using ha
    have h2 : hasId y a = false := by
      simp only [hasId, h1, decide_eq_false_iff_not]
      exact hxy
    rw [h2]
    rfl
  rw [find_filter_of_imp l _ _ himp] at hfind
  exact hl x f t hfind (List.mem_filter.mp ht).1 hid

theorem firstLeads_map (l : List Obj) (f : Obj → Obj) (y : Val) (g : Int → Int)
    (hid : ∀ x t, hasId x (f t) = hasId x t)
    (hshape : ∀ t ∈ l, spentNum (f t) = if hasId y t = true then g (spentNum t) else spentNum t)
    (hmono : ∀ a b, a ≤ b → g a ≤ g b) (hl : FirstLeads l) : FirstLeads (l.map f) := by
  intro x f' t' hfind ht' hid'
  rw [find_map_keepId l x f (hid x)] at hfind
  cases hfl : l.find? (hasId x) with
  | none =>
    rw [hfl] at hfind
    cases hfind
  | some f0 =>
    rw [hfl] at hfind
    have hf' : f f0 = f' := by simpa using hfind
    obtain ⟨t0, ht0, rfl⟩ := List.mem_map.mp ht'
    rw [hid x t0] at hid'
    have hle := hl x f0 t0 hfl ht0 hid'
    have hf0x : hasId x f0 = true := List.find?_some hfl
    have hf0mem : f0 ∈ l := List.mem_of_find?_eq_some hfl
    have e1 : readProp t0 "id" = x := by simpa [hasId] using hid'
    have e2 : readProp f0 "id" = x := by simpa [hasId] using hf0x
    have hy : hasId y t0 = hasId y f0 := by
      unfold hasId
      rw [e1, e2]
    rw [← hf', hshape t0 ht0, hshape f0 hf0mem, hy]
    split_ifs
    · exact hmono _ _ hle
    · exact hle

theorem firstLeads_append (l : List Obj) (new : Obj) (hl : FirstLeads l)
    (hpos : ∀ t ∈ l, 0 ≤ spentNum t) (hnew : spentNum new = 0) :
    FirstLeads (l ++ [new]) := by
  intro x f t hfind ht hid
  rw [List.find?_append] at hfind
  cases hfl : l.find? (hasId x) with
  | some f0 =>
    rw [hfl] at hfind
    have hf : f0 = f := by simpa using hfind
    rw [← hf]
    rcases List.mem_append.mp ht with h | h
    · exact hl x f0 t hfl h hid
    · have : t = new := by simpa using h
      rw [this, hnew]
      exact hpos f0 (List.mem_of_find?_eq_some hfl)
  | none =>
    rw [hfl] at hfind
    have hf : f ∈ [new] := List.mem_of_find?_eq_some (by simpa using hfind)
    have hfnew : f = new := by simpa using hf
    rcases List.mem_append.mp ht with h | h
    · have := List.find?_eq_none.mp hfl t h
      rw [hid] at this
      exact absurd rfl this
    · have : t = new := by simpa using h
      rw [this, hfnew]

theorem firstLeads_survivors (s : State) (op : Op) (h : FirstLeads s.tasks) :
    FirstLeads (survivors s op) := by
  cases op <;> first
    | exact h
    | exact firstLeads_filter s.tasks _ h

theorem spentNum_newTask (iso : Int → String) (uuid : String) (taskData : Obj) (now : Int) :
    readProp (newTask iso uuid taskData now) "timeSpent" = Val.num 0 := by
  rw [readProp_newTask]
  simp

/-- One operation at a clock reading that is not before the last one keeps
the invariant. -/
theorem spentInv_step (iso : Int → String) (s : State) (c : Int) (op : Op) (now : Int)
    (hinv : SpentInv s c) (hc : c ≤ now) : SpentInv (step iso s op now) now := by
  obtain ⟨y, g, hmono, hnonneg, _, hshape⟩ := spentShape_stepTask iso s c op now hinv hc
  have hnum : ∀ t ∈ s.tasks, ∃ k, readProp (stepTask iso s op now t) "timeSpent" = Val.num k
      ∧ 0 ≤ k := by
    intro t ht
    obtain ⟨k, hk, hk0⟩ := hinv.1 t ht
    refine ⟨_, hshape t ht, ?_⟩
    rw [spentNum_of_num t k hk]
    split_ifs
    · exact hnonneg k hk0
    · exact hk0
  refine ⟨?_, ?_, ?_, ?_⟩
  · intro t ht
    rw [step_tasks, List.mem_append] at ht
    rcases ht with ht | ht
    · obtain ⟨t0, ht0, rfl⟩ := List.mem_map.mp ht
      exact hnum t0 (survivors_subset s op t0 ht0)
    · cases op with
      | addTask uuid taskData =>
        have : t = newTask iso uuid taskData now := by simpa [appended] using ht
        rw [this]
        exact ⟨0, spentNum_newTask iso uuid taskData now, le_refl _⟩
      | startTimer taskId => simp [appended] at ht
      | tick handle => simp [appended] at ht
      | stopTimer taskId => simp [appended] at ht
      | completeTask taskId => simp [appended] at ht
      | deleteTask taskId => simp [appended] at ht
  · intro key timer h
    rcases step_timers iso s op now key timer h with h1 | h1
    · omega
    · have := hinv.2.1 key timer h1
      omega
  · intro iv h
    rcases step_intervals iso s op now iv h with h1 | h1
    · omega
    · have := hinv.2.2.1 iv h1
      omega
  · rw [step_tasks]
    have hmap : FirstLeads ((survivors s op).map (stepTask iso s op now)) := by
      refine firstLeads_map _ _ y g (fun x t => hasId_stepTask iso s op now x t) ?_ hmono
        (firstLeads_survivors s op hinv.2.2.2)
      intro t ht
      exact spentNum_of_num _ _ (hshape t (survivors_subset s op t ht))
    cases op with
    | addTask uuid taskData =>
      refine firstLeads_append _ _ hmap ?_
        (spentNum_of_num _ 0 (spentNum_newTask iso uuid taskData now))
      intro t ht
      obtain ⟨t0, ht0, rfl⟩ := List.mem_map.mp ht
      obtain ⟨k, hk, hk0⟩ := hnum t0 (survivors_subset s _ t0 ht0)
      rw [spentNum_of_num _ k hk]
      exact hk0
    | startTimer taskId => simpa [appended] using hmap
    | tick handle => simpa [appended] using hmap
    | stopTimer taskId => simpa [appended] using hmap
    | completeTask taskId => simpa [appended] using hmap
    | deleteTask taskId => simpa [appended] using hmap

theorem spentInv_of_reachableAt (iso : Int → String) (s : State) (c : Int)
    (h : ReachableAt iso s c) : SpentInv s c := by
  induction h with
  | init c =>
    refine ⟨?_, ?_, ?_, ?_⟩
    · intro t ht
      cases ht
    · intro key timer h
      cases h
    · intro iv h
      cases h
    · intro x f t hfind
      cases hfind
  | step s c op now _ hc ih => exact spentInv_step iso s c op now ih hc

/-- C13: monotonic, non-negative `timeSpent`. In a state reached from the empty
store by `addTask`, `startTimer`, periodic ticks, `stopTimer`, `completeTask`
and `deleteTask` with a clock that never goes backwards, and for one more
such operation at a reading `now` not before the last one: every `timeSpent`
is a non-negative number before and after the operation, and each task that
stays in the store (same position among the survivors, same id) has a
`timeSpent` after the operation that is not lower than before. -/
theorem timeSpent_monotone (iso : Int → String) (s : State) (c : Int) (op : Op) (now : Int)
    (hreach : ReachableAt iso s c) (hclock : c ≤ now) :
    (∀ t ∈ s.tasks, ∃ k, readProp t "timeSpent" = Val.num k ∧ 0 ≤ k) ∧
    (∀ t ∈ (step iso s op now).tasks, ∃ k, readProp t "timeSpent" = Val.num k ∧ 0 ≤ k) ∧
    (∀ (i : Nat) (t : Obj), (survivors s op)[i]? = some t →
      ∃ t' k k', (step iso s op now).tasks[i]? = some t' ∧
        readProp t' "id" = readProp t "id" ∧
        readProp t "timeSpent" = Val.num k ∧
        readProp t' "timeSpent" = Val.num k' ∧
        0 ≤ k ∧ k ≤ k') := by
  have hinv := spentInv_of_reachableAt iso s c hreach
  refine ⟨hinv.1, (spentInv_step iso s c op now hinv hclock).1, ?_⟩
  intro i t hi
  have hmem : t ∈ s.tasks :=
    survivors_subset s op t (List.getElem?_mem hi)
  obtain ⟨y, g, _, _, hinfl, hshape⟩ := spentShape_stepTask iso s c op now hinv hclock
  obtain ⟨k, hk, hk0⟩ := hinv.1 t hmem
  refine ⟨stepTask iso s op now t, k, _, step_getElem iso s op now i t hi,
    readProp_id_stepTask iso s op now t, hk, hshape t hmem, hk0, ?_⟩
  have hsp := spentNum_of_num t k hk
  split_ifs with hid
  · have := hinfl t hmem hid
    omega
  · omega

/-- C13 on the running timer of task "a" (started at 0 ms): the tick at 30 s
raises `timeSpent` from 0 to 30. -/
theorem timeSpent_monotone_witness :
    timeSpentOf demoRunning (Val.str "a") = some (Val.num 0) ∧
    timeSpentOf (step isoDemo demoRunning (Op.tick 0) 30000) (Val.str "a")
      = some (Val.num 30) ∧
    (∀ (i : Nat) (t : Obj), (survivors demoRunning (Op.tick 0))[i]? = some t →
      ∃ t' k k', (step isoDemo demoRunning (Op.tick 0) 30000).tasks[i]? = some t' ∧
        readProp t' "id" = readProp t "id" ∧
        readProp t "timeSpent" = Val.num k ∧
        readProp t' "timeSpent" = Val.num k' ∧
        0 ≤ k ∧ k ≤ k') :=
  ⟨by decide, by decide,
   (timeSpent_monotone isoDemo demoRunning 0 (Op.tick 0) 30000
    (ReachableAt.step
      (step isoDemo State.init
        (Op.addTask "a" [("title", Val.str "Write report"), ("assignedTo", Val.str "u1")]) 0)
      0 (Op.startTimer (Val.str "a")) 0
      (ReachableAt.step State.init 0
        (Op.addTask "a" [("title", Val.str "Write report"), ("assignedTo", Val.str "u1")]) 0
        (ReachableAt.init 0) (le_refl 0))
      (le_refl 0))
    (by decide)).2.2⟩

/-! ## The breakdown of the remaining time -/

theorem getTimeRemaining_parts (parseDate : String → Option Int) (deadline : Val)
    (now d : Int) (hd : timeValue parseDate deadline = some d) (hpos : 0 < d - now) :
    getTimeRemaining parseDate deadline now =
      if daysOf (d - now) > 0 then
        toString (daysOf (d - now)) ++ "d " ++ toString (hoursOf (d - now)) ++ "h remaining"
      else if hoursOf (d - now) > 0 then
        toString (hoursOf (d - now)) ++ "h " ++ toString (minutesOf (d - now)) ++ "m remaining"
      else toString (minutesOf (d - now)) ++ "m remaining" := by
  unfold getTimeRemaining
  rw [hd]
  have hneg : ¬ (d - now ≤ 0) := by omega
  simp only [hneg, if_false]
  rfl

theorem parts_as_floor (diff : Int) (hpos : 0 < diff) :
    daysOf diff = diff / 86400000 ∧
    hoursOf diff = diff % 86400000 / 3600000 ∧
    minutesOf diff = diff % 3600000 / 60000 := by
  unfold daysOf hoursOf minutesOf
  rw [Int.tmod_eq_emod (by omega) (by decide), Int.tmod_eq_emod (by omega) (by decide)]
  refine ⟨?_, ?_, ?_⟩ <;> norm_num

/-- C21: `getTimeRemaining` picks the largest-unit breakdown. For a deadline
with time value `d` and `diff = d - now > 0` it returns the days form when
`diff ≥ 86 400 000`, else the hours form when `diff ≥ 3 600 000`, else the
minutes form, with `d = floor (diff / 86 400 000)`,
`h = floor ((diff mod 86 400 000) / 3 600 000)` and
`m = floor ((diff mod 3 600 000) / 60 000)`. -/
theorem getTimeRemaining_breakdown (parseDate : String → Option Int) (deadline : Val)
    (now d : Int) (hd : timeValue parseDate deadline = some d) (hpos : 0 < d - now) :
    getTimeRemaining parseDate deadline now =
      if 86400000 ≤ d - now then
        toString ((d - now) / 86400000) ++ "d "
          ++ toString ((d - now) % 86400000 / 3600000) ++ "h remaining"
      else if 3600000 ≤ d - now then
        toString ((d - now) % 86400000 / 3600000) ++ "h "
          ++ toString ((d - now) % 3600000 / 60000) ++ "m remaining"
      else toString ((d - now) % 3600000 / 60000) ++ "m remaining" := by
  rw [getTimeRemaining_parts parseDate deadline now d hd hpos]
  obtain ⟨e1, e2, e3⟩ := parts_as_floor (d - now) hpos
  rw [e1, e2, e3]
  by_cases h1 : 86400000 ≤ d - now
  · have : (d - now) / 86400000 > 0 := by omega
    rw [if_pos this, if_pos h1]
  · have hd0 : ¬ ((d - now) / 86400000 > 0) := by omega
    rw [if_neg hd0, if_neg h1]
    by_cases h2 : 3600000 ≤ d - now
    · have : (d - now) % 86400000 / 3600000 > 0 := by omega
      rw [if_pos this, if_pos h2]
    · have : ¬ ((d - now) % 86400000 / 3600000 > 0) := by omega
      rw [if_neg this, if_neg h2]

/-- C21 at a deadline 90 minutes ahead: the result is `1h 30m remaining`. -/
theorem getTimeRemaining_breakdown_witness :
    getTimeRemaining parseDemo (Val.num 5400000) 0 = "1h 30m remaining" ∧
    getTimeRemaining parseDemo (Val.num 5400000) 0 =
      if 86400000 ≤ (5400000 : Int) - 0 then
        toString (((5400000 : Int) - 0) / 86400000) ++ "d "
          ++ toString (((5400000 : Int) - 0) % 86400000 / 3600000) ++ "h remaining"
      else if 3600000 ≤ (5400000 : Int) - 0 then
        toString (((5400000 : Int) - 0) % 86400000 / 3600000) ++ "h "
          ++ toString (((5400000 : Int) - 0) % 3600000 / 60000) ++ "m remaining"
      else toString (((5400000 : Int) - 0) % 3600000 / 60000) ++ "m remaining" :=
  ⟨by decide,
   getTimeRemaining_breakdown parseDemo (Val.num 5400000) 0 5400000 (by decide) (by decide)⟩

/-- C29: the breakdown is a truncating mixed-radix decomposition. For a
deadline with time value `d` and `diff = d - now > 0` the result is built
from `daysOf`, `hoursOf` and `minutesOf` of `diff`, with `0 ≤ h ≤ 23`,
`0 ≤ m ≤ 59` and `d·86 400 000 + h·3 600 000 + m·60 000 ≤ diff`, the next
minute being strictly above `diff`; the days form (days and hours shown) is at
most `diff` and less than one hour below it, and the two other forms (no
day) are at most `diff` and less than one minute below it. -/
theorem remaining_parts_bounds (parseDate : String → Option Int) (deadline : Val)
    (now d : Int) (hd : timeValue parseDate deadline = some d) (hpos : 0 < d - now) :
    (getTimeRemaining parseDate deadline now =
      if daysOf (d - now) > 0 then
        toString (daysOf (d - now)) ++ "d " ++ toString (hoursOf (d - now)) ++ "h remaining"
      else if hoursOf (d - now) > 0 then
        toString (hoursOf (d - now)) ++ "h " ++ toString (minutesOf (d - now)) ++ "m remaining"
      else toString (minutesOf (d - now)) ++ "m remaining") ∧
    0 ≤ daysOf (d - now) ∧
    0 ≤ hoursOf (d - now) ∧ hoursOf (d - now) ≤ 23 ∧
    0 ≤ minutesOf (d - now) ∧ minutesOf (d - now) ≤ 59 ∧
    daysOf (d - now) * 86400000 + hoursOf (d - now) * 3600000 + minutesOf (d - now) * 60000
      ≤ d - now ∧
    d - now < daysOf (d - now) * 86400000 + hoursOf (d - now) * 3600000
      + (minutesOf (d - now) + 1) * 60000 ∧
    daysOf (d - now) * 86400000 + hoursOf (d - now) * 3600000 ≤ d - now ∧
    d - now < daysOf (d - now) * 86400000 + (hoursOf (d - now) + 1) * 3600000 ∧
    (¬ (daysOf (d - now) > 0) →
      hoursOf (d - now) * 3600000 + minutesOf (d - now) * 60000 ≤ d - now ∧
      d - now < hoursOf (d - now) * 3600000 + (minutesOf (d - now) + 1) * 60000) ∧
    (¬ (daysOf (d - now) > 0) → ¬ (hoursOf (d - now) > 0) →
      minutesOf (d - now) * 60000 ≤ d - now ∧
      d - now < (minutesOf (d - now) + 1) * 60000) := by
  refine ⟨getTimeRemaining_parts parseDate deadline now d hd hpos, ?_⟩
  obtain ⟨e1, e2, e3⟩ := parts_as_floor (d - now) hpos
  rw [e1, e2, e3]
  refine ⟨?_, ?_, ?_, ?_, ?_, ?_, ?_, ?_, ?_, ?_, ?_⟩ <;> omega

/-- C29 at a deadline of 1 day, 1 hour, 1 minute and 1 ms ahead. -/
theorem remaining_parts_bounds_witness :
    getTimeRemaining parseDemo (Val.num 90060001) 0 = "1d 1h remaining" ∧
    daysOf (90060001 - 0) = 1 ∧ hoursOf (90060001 - 0) = 1 ∧ minutesOf (90060001 - 0) = 1 ∧
    daysOf (90060001 - 0) * 86400000 + hoursOf (90060001 - 0) * 3600000 ≤ 90060001 - 0 ∧
    (90060001 : Int) - 0
      < daysOf (90060001 - 0) * 86400000 + (hoursOf (90060001 - 0) + 1) * 3600000 :=
  have h := remaining_parts_bounds parseDemo (Val.num 90060001) 0 90060001
    (by decide) (by decide)
  ⟨by decide, by decide, by decide, by decide, h.2.2.2.2.2.2.2.2.1, h.2.2.2.2.2.2.2.2.2.1⟩

/-! ## Periodic ticks -/

theorem tick_found (s : State) (h : Nat) (now : Int) (iv : Interval)
    (hiv : s.intervals.find? (fun iv => decide (iv.handle = h)) = some iv) :
    tick s h now =
      { s with tasks := s.tasks.map (fun task =>
          if hasId iv.taskId task then
            setProp task "timeSpent"
              (addElapsed (readProp task "timeSpent") ((now - iv.startTime) / 1000))
          else task) } := by
  unfold tick
  rw [hiv]

theorem findTask_tick (s : State) (h : Nat) (now : Int) (iv : Interval) (task : Obj)
    (hiv : s.intervals.find? (fun iv => decide (iv.handle = h)) = some iv)
    (htask : findTask s iv.taskId = some task) :
    findTask (tick s h now) iv.taskId =
      some (setProp task "timeSpent"
        (addElapsed (readProp task "timeSpent") ((now - iv.startTime) / 1000))) := by
  rw [tick_found s h now iv hiv]
  unfold findTask at htask ⊢
  have hkeep : ∀ t, hasId iv.taskId
      ((fun task => if hasId iv.taskId task then
          setProp task "timeSpent"
            (addElapsed (readProp task "timeSpent") ((now - iv.startTime) / 1000))
        else task) t) = hasId iv.taskId t := by
    intro t
    beta_reduce
    split_ifs
    · exact hasId_setProp iv.taskId t "timeSpent" _ (by decide)
    · rfl
  show List.find? (hasId iv.taskId) (s.tasks.map _) = _
  rw [find_map_keepId s.tasks iv.taskId _ hkeep, htask]
  have hid : hasId iv.taskId task = true := List.find?_some htask
  simp [hid]

/-- C25: each periodic tick adds the whole seconds elapsed since the start of
the run. For a live interval with handle `h` whose closure captured the
start time `t0`, and a task of its id with numeric `timeSpent = k0`: after the
ticks at `t0 + 30 k` seconds for `k = 1..n`, with nothing in between,
`timeSpent` is `k0 + 15·n·(n+1)`, while the handles (in particular the
recorded start time) and the live intervals are as before. -/
theorem ticks_accumulate (s : State) (h : Nat) (t0 : Int) (n : Nat) (iv : Interval)
    (task : Obj) (k0 : Int)
    (hiv : s.intervals.find? (fun iv => decide (iv.handle = h)) = some iv)
    (hstart : iv.startTime = t0)
    (htask : findTask s iv.taskId = some task)
    (hspent : readProp task "timeSpent" = Val.num k0) :
    (∃ task', findTask (tickRun s h t0 n) iv.taskId = some task' ∧
      readProp task' "timeSpent" = Val.num (k0 + 15 * (n : Int) * ((n : Int) + 1))) ∧
    (tickRun s h t0 n).activeTimers = s.activeTimers ∧
    (tickRun s h t0 n).intervals = s.intervals := by
  induction n with
  | zero =>
    refine ⟨⟨task, htask, ?_⟩, rfl, rfl⟩
    rw [hspent]
    simp
  | succ n ih =>
    obtain ⟨⟨mid, hmid, hmidspent⟩, hT, hI⟩ := ih
    have hiv' : (tickRun s h t0 n).intervals.find? (fun iv => decide (iv.handle = h))
        = some iv := by rw [hI]; exact hiv
    have hstep : tickRun s h t0 (n + 1)
        = tick (tickRun s h t0 n) h (t0 + 30000 * ((n : Int) + 1)) := rfl
    refine ⟨⟨setProp mid "timeSpent" (addElapsed (readProp mid "timeSpent")
      ((t0 + 30000 * ((n : Int) + 1) - iv.startTime) / 1000)), ?_, ?_⟩, ?_, ?_⟩
    · rw [hstep]
      exact findTask_tick _ h _ iv mid hiv' hmid
    · rw [readProp_setProp, if_pos rfl, hmidspent, addElapsed_num, hstart]
      have he : (t0 + 30000 * ((n : Int) + 1) - t0) / 1000 = 30 * ((n : Int) + 1) := by
        omega
      rw [he]
      congr 1
      push_cast
      ring
    · rw [hstep, tick_found _ h _ iv hiv']
      exact hT
    · rw [hstep, tick_found _ h _ iv hiv']
      exact hI

/-- C25 on the running timer of task "a" (started at 0 ms): after the ticks at
30, 60 and 90 s `timeSpent` is 180. -/
theorem ticks_accumulate_witness :
    timeSpentOf (tickRun demoRunning 0 0 3) (Val.str "a") = some (Val.num 180) ∧
    (∃ task', findTask (tickRun demoRunning 0 0 3)
        ({ handle := 0, taskId := Val.str "a", startTime := 0 } : Interval).taskId
        = some task' ∧
      readProp task' "timeSpent" = Val.num (0 + 15 * ((3 : Nat) : Int) * (((3 : Nat) : Int) + 1))) ∧
    (tickRun demoRunning 0 0 3).activeTimers = demoRunning.activeTimers :=
  have h := ticks_accumulate demoRunning 0 0 3
    { handle := 0, taskId := Val.str "a", startTime := 0 }
    (spread demoTask [("status", Val.str "in-progress"), ("startedAt", Val.str (isoDemo 0))]) 0
    (by decide) rfl (by decide) (by decide)
  ⟨by decide, h.1, h.2.1⟩

/-! ## Frame conditions -/

theorem hasId_false_of_ne (taskId : Val) (t : Obj) (h : readProp t "id" ≠ taskId) :
    hasId taskId t = false := by
  simp [hasId, h]

theorem frame_map (l : List Obj) (taskId : Val) (f : Obj → Obj)
    (hf : ∀ t, readProp t "id" ≠ taskId → f t = t) : FrameOn taskId l (l.map f) := by
  refine ⟨by simp, ?_⟩
  intro i t hi hne
  rw [List.getElem?_map, hi]
  simp [hf t hne]

theorem stopTask_other (s : State) (taskId : Val) (now : Int) (t : Obj)
    (h : readProp t "id" ≠ taskId) : stopTask s taskId now t = t := by
  have hno := hasId_false_of_ne taskId t h
  cases hrun : getProp s.activeTimers (toKey taskId) with
  | none => simp [stopTask, hrun]
  | some timer => simp [stopTask, hrun, hno]

theorem stepTask_other (iso : Int → String) (s : State) (now : Int) (taskId : Val) (t : Obj)
    (h : readProp t "id" ≠ taskId) :
    stepTask iso s (Op.startTimer taskId) now t = t ∧
    stepTask iso s (Op.stopTimer taskId) now t = t ∧
    stepTask iso s (Op.completeTask taskId) now t = t ∧
    (∀ handle iv, s.intervals.find? (fun iv => decide (iv.handle = handle)) = some iv →
      iv.taskId = taskId → stepTask iso s (Op.tick handle) now t = t) := by
  have hno := hasId_false_of_ne taskId t h
  have hstop := stopTask_other s taskId now t h
  refine ⟨?_, hstop, ?_, ?_⟩
  · cases hf : s.tasks.find? (hasId taskId) with
    | none => simp [stepTask, hf]
    | some task => simp [stepTask, hf, hno]
  · show (if hasId taskId (stopTask s taskId now t) = true then _ else _) = _
    rw [hstop, hno]
    rfl
  · intro handle iv hiv hid
    rw [← hid] at hno
    simp [stepTask, hiv, hno]

theorem step_tasks_map (iso : Int → String) (s : State) (now : Int) :
    (∀ taskId, (startTimer iso s taskId now).tasks
      = s.tasks.map (stepTask iso s (Op.startTimer taskId) now)) ∧
    (∀ taskId, (stopTimer s taskId now).tasks
      = s.tasks.map (stepTask iso s (Op.stopTimer taskId) now)) ∧
    (∀ taskId, (completeTask iso s taskId now).tasks
      = s.tasks.map (stepTask iso s (Op.completeTask taskId) now)) ∧
    (∀ handle, (tick s handle now).tasks
      = s.tasks.map (stepTask iso s (Op.tick handle) now)) := by
  refine ⟨?_, ?_, ?_, ?_⟩
  · intro taskId
    have := step_tasks iso s (Op.startTimer taskId) now
    simpa [step, survivors, appended] using this
  · intro taskId
    have := step_tasks iso s (Op.stopTimer taskId) now
    simpa [step, survivors, appended] using this
  · intro taskId
    have := step_tasks iso s (Op.completeTask taskId) now
    simpa [step, survivors, appended] using this
  · intro handle
    have := step_tasks iso s (Op.tick handle) now
    simpa [step, survivors, appended] using this

theorem stopTimer_timers_eq (s : State) (taskId : Val) (n : Int) (key : String) :
    getProp (stopTimer s taskId n).activeTimers key
      = if toKey taskId = key then none else getProp s.activeTimers key := by
  unfold stopTimer
  cases hrun : getProp s.activeTimers (toKey taskId) with
  | none =>
    rw [stopTimerIn_idle s s taskId n hrun]
    by_cases hk : toKey taskId = key
    · rw [if_pos hk, ← hk, hrun]
    · rw [if_neg hk]
  | some timer =>
    rw [stopTimerIn_running s s taskId n timer hrun]
    show getProp (deleteProp s.activeTimers (toKey taskId)) key = _
    rw [getProp_deleteProp]

theorem startTimer_timers_eq (iso : Int → String) (s : State) (taskId : Val) (n : Int)
    (task : Obj) (htask : findTask s taskId = some task) (key : String) :
    getProp (startTimer iso s taskId n).activeTimers key
      = if toKey taskId = key then some { interval := s.nextInterval, startTime := n }
        else getProp s.activeTimers key := by
  rw [startTimer_found iso s taskId n task htask]
  show getProp (setProp s.activeTimers (toKey taskId) _) key = _
  rw [getProp_setProp]

theorem startTimer_absent (iso : Int → String) (s : State) (taskId : Val) (n : Int)
    (h : findTask s taskId = none) : startTimer iso s taskId n = s := by
  unfold findTask at h
  unfold startTimer
  rw [h]

/-- C28: frame. `updateTask (id, ·)`, `startTimer (id)`, `stopTimer (id)`,
`completeTask (id)` and a tick of an interval started for `id` keep the length
of the store and leave every task whose id differs from `id` at its position,
unchanged in every field; `startTimer (id)` and `stopTimer (id)` leave the
handle stored under every key other than the key of `id` unchanged. -/
theorem frame_of_operations (iso : Int → String) (s : State) (taskId : Val) (updates : Obj)
    (n : Int) :
    FrameOn taskId s.tasks (updateTask s taskId updates).tasks ∧
    FrameOn taskId s.tasks (startTimer iso s taskId n).tasks ∧
    FrameOn taskId s.tasks (stopTimer s taskId n).tasks ∧
    FrameOn taskId s.tasks (completeTask iso s taskId n).tasks ∧
    (∀ handle iv, s.intervals.find? (fun iv => decide (iv.handle = handle)) = some iv →
      iv.taskId = taskId → FrameOn taskId s.tasks (tick s handle n).tasks) ∧
    (∀ key, key ≠ toKey taskId →
      getProp (startTimer iso s taskId n).activeTimers key = getProp s.activeTimers key) ∧
    (∀ key, key ≠ toKey taskId →
      getProp (stopTimer s taskId n).activeTimers key = getProp s.activeTimers key) := by
  obtain ⟨hstart, hstop, hcomp, htick⟩ := step_tasks_map iso s n
  refine ⟨?_, ?_, ?_, ?_, ?_, ?_, ?_⟩
  · apply frame_map
    intro t hne
    simp [hasId_false_of_ne taskId t hne]
  · rw [hstart taskId]
    exact frame_map _ _ _ (fun t hne => (stepTask_other iso s n taskId t hne).1)
  · rw [hstop taskId]
    exact frame_map _ _ _ (fun t hne => (stepTask_other iso s n taskId t hne).2.1)
  · rw [hcomp taskId]
    exact frame_map _ _ _ (fun t hne => (stepTask_other iso s n taskId t hne).2.2.1)
  · intro handle iv hiv hid
    rw [htick handle]
    exact frame_map _ _ _
      (fun t hne => (stepTask_other iso s n taskId t hne).2.2.2 handle iv hiv hid)
  · intro key hkey
    cases hf : findTask s taskId with
    | none => rw [startTimer_absent iso s taskId n hf]
    | some task =>
      rw [startTimer_timers_eq iso s taskId n task hf, if_neg (fun h => hkey h.symm)]
  · intro key hkey
    rw [stopTimer_timers_eq, if_neg (fun h => hkey h.symm)]

/-! ## Fields set at creation -/

theorem getProp_stepTask (iso : Int → String) (s : State) (op : Op) (now : Int) (t : Obj)
    (k : String) (h1 : k ≠ "status") (h2 : k ≠ "startedAt") (h3 : k ≠ "timeSpent")
    (h4 : k ≠ "completedAt") :
    getProp (stepTask iso s op now t) k = getProp t k := by
  have e1 := Ne.symm h1
  have e2 := Ne.symm h2
  have e3 := Ne.symm h3
  have e4 := Ne.symm h4
  rcases stepTask_cases iso s op now t with h | ⟨a, h⟩ | ⟨v, h⟩ | ⟨v, h⟩ | h | ⟨v, h⟩
  · rw [h]
  · rw [h, getProp_spread]
    simp [getProp, e1, e2]
  · rw [h, getProp_setProp, if_neg e3]
  · rw [h, getProp_spread]
    simp [getProp, e1, e3]
  · rw [h, getProp_spread]
    simp [getProp, e1, e4]
  · rw [h, getProp_spread, getProp_spread]
    simp [getProp, e1, e3, e4]

/-- C23 (as stated, refuted): `updateTask ("a", ...)` with an update naming
`id`, `createdAt`, `assignedBy` and `assignedByName` replaces all four on the
task that `addTask` created. -/
theorem updateTask_rewrites_provenance :
    demoStore.tasks.map (fun t => (readProp t "id", readProp t "createdAt",
        readProp t "assignedBy", readProp t "assignedByName"))
      = [(Val.str "a", Val.str "T0", Val.undefined, Val.undefined)] ∧
    demoRewritten.tasks.map (fun t => (readProp t "id", readProp t "createdAt",
        readProp t "assignedBy", readProp t "assignedByName"))
      = [(Val.str "z", Val.str "T9", Val.str "u9", Val.str "Nobody")] := by
  decide

/-- C23 (amended): `id`, `createdAt`, `assignedBy` and `assignedByName` are
left alone by every operation except `updateTask`. Across `addTask`,
`startTimer`, a tick, `stopTimer`, `completeTask` and `deleteTask` a task that
stays in the store keeps these four fields; `updateTask (id, updates)` keeps
every field that `updates` does not name and, on the tasks carrying `id`,
overwrites every field that `updates` names, these four included. -/
theorem provenance_fields (iso : Int → String) (s : State) :
    (∀ (op : Op) (now : Int) (i : Nat) (t : Obj), (survivors s op)[i]? = some t →
      ∃ t', (step iso s op now).tasks[i]? = some t' ∧
        getProp t' "id" = getProp t "id" ∧
        getProp t' "createdAt" = getProp t "createdAt" ∧
        getProp t' "assignedBy" = getProp t "assignedBy" ∧
        getProp t' "assignedByName" = getProp t "assignedByName") ∧
    (∀ (taskId : Val) (updates : Obj) (i : Nat) (t : Obj), s.tasks[i]? = some t →
      ∃ t', (updateTask s taskId updates).tasks[i]? = some t' ∧
        (∀ k, getProp updates k = none → getProp t' k = getProp t k) ∧
        (readProp t "id" = taskId →
          ∀ k v, getProp updates k = some v → getProp t' k = some v)) := by
  constructor
  · intro op now i t hi
    exact ⟨_, step_getElem iso s op now i t hi,
      getProp_stepTask iso s op now t "id" (by decide) (by decide) (by decide) (by decide),
      getProp_stepTask iso s op now t "createdAt" (by decide) (by decide) (by decide)
        (by decide),
      getProp_stepTask iso s op now t "assignedBy" (by decide) (by decide) (by decide)
        (by decide),
      getProp_stepTask iso s op now t "assignedByName" (by decide) (by decide) (by decide)
        (by decide)⟩
  · intro taskId updates i t hi
    refine ⟨if hasId taskId t then spread t updates else t, ?_, ?_, ?_⟩
    · simp [updateTask, List.getElem?_map, hi]
    · intro k hk
      split_ifs
      · rw [getProp_spread, hk]
        rfl
      · rfl
    · intro hid k v hk
      have : hasId taskId t = true := by simp [hasId, hid]
      rw [if_pos this, getProp_spread, hk]
      rfl

/-! ## Handles and status under fresh ids -/

theorem linked_ids (s s' : State) (f : Obj → Obj) (hl : Linked s)
    (hT : s'.tasks = s.tasks.map f)
    (hid : ∀ t, readProp (f t) "id" = readProp t "id") :
    (∀ t ∈ s'.tasks, ∃ u, readProp t "id" = Val.str u) ∧ (taskIds s').Nodup := by
  constructor
  · intro t ht
    rw [hT] at ht
    obtain ⟨t0, ht0, rfl⟩ := List.mem_map.mp ht
    rw [hid]
    exact hl.1 t0 ht0
  · have : taskIds s' = taskIds s := by
      unfold taskIds
      rw [hT, List.map_map]
      apply List.map_congr_left
      intro t _
      exact hid t
    rw [this]
    exact hl.2.1

theorem linked_clear (s s' : State) (u : String) (f : Obj → Obj) (hl : Linked s)
    (hT : s'.tasks = s.tasks.map f)
    (hid : ∀ t, readProp (f t) "id" = readProp t "id")
    (hother : ∀ t, readProp t "id" ≠ Val.str u → f t = t)
    (hmatch : ∀ t, readProp t "id" = Val.str u →
      readProp (f t) "status" ≠ Val.str "in-progress")
    (hH : ∀ key, getProp s'.activeTimers key
      = if u = key then none else getProp s.activeTimers key) : Linked s' := by
  obtain ⟨h1, h2⟩ := linked_ids s s' f hl hT hid
  refine ⟨h1, h2, ?_⟩
  intro key
  rw [hH key]
  constructor
  · intro hsome
    by_cases hk : u = key
    · rw [if_pos hk] at hsome
      cases hsome
    · rw [if_neg hk] at hsome
      obtain ⟨t, ht, hidt, hst⟩ := (hl.2.2 key).mp hsome
      have hne : readProp t "id" ≠ Val.str u := by
        rw [hidt]
        intro h
        injection h with h
        exact hk h.symm
      refine ⟨t, ?_, hidt, hst⟩
      rw [hT]
      exact List.mem_map.mpr ⟨t, ht, hother t hne⟩
  · rintro ⟨t', ht', hidt', hst'⟩
    rw [hT] at ht'
    obtain ⟨t, ht, rfl⟩ := List.mem_map.mp ht'
    rw [hid] at hidt'
    by_cases hk : u = key
    · exact absurd hst' (hmatch t (by rw [hidt', hk]))
    · rw [if_neg hk]
      have hne : readProp t "id" ≠ Val.str u := by
        rw [hidt']
        intro h
        injection h with h
        exact hk h.symm
      rw [hother t hne] at hst'
      exact (hl.2.2 key).mpr ⟨t, ht, hidt', hst'⟩

theorem linked_set (s s' : State) (u : String) (f : Obj → Obj) (tm : Timer) (hl : Linked s)
    (hT : s'.tasks = s.tasks.map f)
    (hid : ∀ t, readProp (f t) "id" = readProp t "id")
    (hother : ∀ t, readProp t "id" ≠ Val.str u → f t = t)
    (hmatch : ∀ t, readProp t "id" = Val.str u →
      readProp (f t) "status" = Val.str "in-progress")
    (hex : ∃ t ∈ s.tasks, readProp t "id" = Val.str u)
    (hH : ∀ key, getProp s'.activeTimers key
      = if u = key then some tm else getProp s.activeTimers key) : Linked s' := by
  obtain ⟨h1, h2⟩ := linked_ids s s' f hl hT hid
  refine ⟨h1, h2, ?_⟩
  intro key
  rw [hH key]
  constructor
  · intro hsome
    by_cases hk : u = key
    · obtain ⟨t, ht, hidt⟩ := hex
      refine ⟨f t, ?_, ?_, hmatch t hidt⟩
      · rw [hT]
        exact List.mem_map.mpr ⟨t, ht, rfl⟩
      · rw [hid, hidt, hk]
    · rw [if_neg hk] at hsome
      obtain ⟨t, ht, hidt, hst⟩ := (hl.2.2 key).mp hsome
      have hne : readProp t "id" ≠ Val.str u := by
        rw [hidt]
        intro h
        injection h with h
        exact hk h.symm
      refine ⟨t, ?_, hidt, hst⟩
      rw [hT]
      exact List.mem_map.mpr ⟨t, ht, hother t hne⟩
  · rintro ⟨t', ht', hidt', hst'⟩
    rw [hT] at ht'
    obtain ⟨t, ht, rfl⟩ := List.mem_map.mp ht'
    rw [hid] at hidt'
    by_cases hk : u = key
    · rw [if_pos hk]
      rfl
    · rw [if_neg hk]
      have hne : readProp t "id" ≠ Val.str u := by
        rw [hidt']
        intro h
        injection h with h
        exact hk h.symm
      rw [hother t hne] at hst'
      exact (hl.2.2 key).mpr ⟨t, ht, hidt', hst'⟩

theorem linked_same (s s' : State) (f : Obj → Obj) (hl : Linked s)
    (hT : s'.tasks = s.tasks.map f)
    (hid : ∀ t, readProp (f t) "id" = readProp t "id")
    (hstat : ∀ t, readProp (f t) "status" = readProp t "status")
    (hH : s'.activeTimers = s.activeTimers) : Linked s' := by
  obtain ⟨h1, h2⟩ := linked_ids s s' f hl hT hid
  refine ⟨h1, h2, ?_⟩
  intro key
  rw [hH, hl.2.2 key]
  constructor
  · rintro ⟨t, ht, hidt, hst⟩
    refine ⟨f t, ?_, ?_, ?_⟩
    · rw [hT]
      exact List.mem_map.mpr ⟨t, ht, rfl⟩
    · rw [hid, hidt]
    · rw [hstat, hst]
  · rintro ⟨t', ht', hidt', hst'⟩
    rw [hT] at ht'
    obtain ⟨t, ht, rfl⟩ := List.mem_map.mp ht'
    rw [hid] at hidt'
    rw [hstat] at hst'
    exact ⟨t, ht, hidt', hst'⟩

theorem id_of_hasId (taskId : Val) (t : Obj) (h : readProp t "id" = taskId) :
    hasId taskId t = true := by
  simp [hasId, h]

theorem linked_startTimer (iso : Int → String) (s : State) (u : String) (now : Int)
    (hl : Linked s) : Linked (startTimer iso s (Val.str u) now) := by
  cases hf : findTask s (Val.str u) with
  | none =>
    rw [startTimer_absent iso s (Val.str u) now hf]
    exact hl
  | some task =>
    have hfind : s.tasks.find? (hasId (Val.str u)) = some task := hf
    refine linked_set s _ u (stepTask iso s (Op.startTimer (Val.str u)) now)
      { interval := s.nextInterval, startTime := now } hl
      ((step_tasks_map iso s now).1 (Val.str u))
      (fun t => readProp_id_stepTask iso s _ now t)
      (fun t hne => (stepTask_other iso s now (Val.str u) t hne).1) ?_ ?_ ?_
    · intro t hid
      have h := id_of_hasId (Val.str u) t hid
      simp [stepTask, hfind, h, readProp_spread, getProp]
    · refine ⟨task, List.mem_of_find?_eq_some hfind, ?_⟩
      have := List.find?_some hfind
      simpa [hasId] using this
    · intro key
      exact startTimer_timers_eq iso s (Val.str u) now task hf key

theorem linked_stopTimer (s : State) (u : String) (now : Int)
    (hl : Linked s) : Linked (stopTimer s (Val.str u) now) := by
  cases hrun : getProp s.activeTimers (toKey (Val.str u)) with
  | none =>
    have : stopTimer s (Val.str u) now = s := stopTimerIn_idle s s (Val.str u) now hrun
    rw [this]
    exact hl
  | some timer =>
    refine linked_clear s _ u (stepTask isoDemo s (Op.stopTimer (Val.str u)) now) hl
      ((step_tasks_map isoDemo s now).2.1 (Val.str u))
      (fun t => readProp_id_stepTask isoDemo s _ now t)
      (fun t hne => (stepTask_other isoDemo s now (Val.str u) t hne).2.1) ?_ ?_
    · intro t hid
      have h := id_of_hasId (Val.str u) t hid
      simp [stepTask, stopTask, hrun, h, readProp_spread, getProp]
    · intro key
      exact stopTimer_timers_eq s (Val.str u) now key

theorem completeTask_timers_eq (iso : Int → String) (s : State) (taskId : Val) (n : Int)
    (key : String) :
    getProp (completeTask iso s taskId n).activeTimers key
      = if toKey taskId = key then none else getProp s.activeTimers key := by
  cases hrun : getProp s.activeTimers (toKey taskId) with
  | none =>
    rw [completeTask_idle iso s taskId n hrun]
    show getProp s.activeTimers key = _
    by_cases hk : toKey taskId = key
    · rw [if_pos hk, ← hk, hrun]
    · rw [if_neg hk]
  | some timer =>
    rw [completeTask_running iso s taskId n timer hrun]
    exact stopTimer_timers_eq s taskId n key

theorem linked_completeTask (iso : Int → String) (s : State) (u : String) (now : Int)
    (hl : Linked s) : Linked (completeTask iso s (Val.str u) now) := by
  refine linked_clear s _ u (stepTask iso s (Op.completeTask (Val.str u)) now) hl
    ((step_tasks_map iso s now).2.2.1 (Val.str u))
    (fun t => readProp_id_stepTask iso s _ now t)
    (fun t hne => (stepTask_other iso s now (Val.str u) t hne).2.2.1) ?_ ?_
  · intro t hid
    have h := id_of_hasId (Val.str u) t hid
    have h2 : hasId (Val.str u) (stopTask s (Val.str u) now t) = true := by
      rw [hasId_stopTask]
      exact h
    have e : stepTask iso s (Op.completeTask (Val.str u)) now t
        = spread (stopTask s (Val.str u) now t)
          [("status", Val.str "completed"), ("completedAt", Val.str (iso now))] := by
      show (if hasId (Val.str u) (stopTask s (Val.str u) now t) = true then _ else _) = _
      rw [if_pos h2]
    rw [e]
    simp [readProp_spread, getProp]
  · intro key
    exact completeTask_timers_eq iso s (Val.str u) now key

theorem linked_tick (s : State) (handle : Nat) (now : Int)
    (hl : Linked s) : Linked (tick s handle now) := by
  refine linked_same s _ (stepTask isoDemo s (Op.tick handle) now) hl
    ((step_tasks_map isoDemo s now).2.2.2 handle)
    (fun t => readProp_id_stepTask isoDemo s _ now t) ?_ ?_
  · intro t
    cases hf : s.intervals.find? (fun iv => decide (iv.handle = handle)) with
    | none => simp [stepTask, hf]
    | some iv =>
      by_cases hid : hasId iv.taskId t = true
      · simp [stepTask, hf, hid, readProp_setProp]
      · simp [stepTask, hf, hid]
  · unfold tick
    cases s.intervals.find? (fun iv => decide (iv.handle = handle)) <;> rfl

theorem deleteTask_timers_eq (s : State) (taskId : Val) (n : Int) (key : String) :
    getProp (deleteTask s taskId n).activeTimers key
      = if toKey taskId = key then none else getProp s.activeTimers key := by
  unfold deleteTask
  cases hrun : getProp s.activeTimers (toKey taskId) with
  | none =>
    simp only [Option.isSome_none, Bool.false_eq_true, if_false]
    by_cases hk : toKey taskId = key
    · rw [if_pos hk, ← hk, hrun]
    · rw [if_neg hk]
  | some timer =>
    simp only [Option.isSome_some, if_true]
    rw [stopTimerIn_running s _ taskId n timer hrun]
    show getProp (deleteProp s.activeTimers (toKey taskId)) key = _
    rw [getProp_deleteProp]

theorem linked_deleteTask (s : State) (u : String) (now : Int)
    (hl : Linked s) : Linked (deleteTask s (Val.str u) now) := by
  have hT := deleteTask_tasks s (Val.str u) now
  have hmem : ∀ t, t ∈ (deleteTask s (Val.str u) now).tasks ↔
      t ∈ s.tasks ∧ readProp t "id" ≠ Val.str u := by
    intro t
    rw [hT, List.mem_filter]
    simp [hasId]
  refine ⟨?_, ?_, ?_⟩
  · intro t ht
    exact hl.1 t ((hmem t).mp ht).1
  · unfold taskIds
    rw [hT]
    exact List.Nodup.sublist (List.Sublist.map _ (List.filter_sublist _)) hl.2.1
  · intro key
    rw [deleteTask_timers_eq]
    show (if u = key then none else getProp s.activeTimers key).isSome = true ↔ _
    constructor
    · intro hsome
      by_cases hk : u = key
      · rw [if_pos hk] at hsome
        cases hsome
      · rw [if_neg hk] at hsome
        obtain ⟨t, ht, hidt, hst⟩ := (hl.2.2 key).mp hsome
        refine ⟨t, (hmem t).mpr ⟨ht, ?_⟩, hidt, hst⟩
        rw [hidt]
        intro h
        injection h with h
        exact hk h.symm
    · rintro ⟨t, ht, hidt, hst⟩
      obtain ⟨ht0, hne⟩ := (hmem t).mp ht
      have hk : ¬ u = key := by
        intro hk
        apply hne
        rw [hidt, hk]
      rw [if_neg hk]
      exact (hl.2.2 key).mpr ⟨t, ht0, hidt, hst⟩

theorem readProp_id_newTask (iso : Int → String) (uuid : String) (taskData : Obj) (now : Int) :
    readProp (newTask iso uuid taskData now) "id"
      = (getProp taskData "id").getD (Val.str uuid) := by
  rw [readProp_newTask]
  simp only [String.reduceEq, if_false]
  rw [readProp_spread]
  rfl

theorem linked_addTask (iso : Int → String) (s : State) (uuid : String) (taskData : Obj)
    (now : Int) (hl : Linked s) (hnoid : getProp taskData "id" = none)
    (hfresh : ∀ t ∈ s.tasks, readProp t "id" ≠ Val.str uuid) :
    Linked (addTask iso s uuid taskData now).2 := by
  have hid : readProp (newTask iso uuid taskData now) "id" = Val.str uuid := by
    rw [readProp_id_newTask, hnoid]
    rfl
  have hst : readProp (newTask iso uuid taskData now) "status" = Val.str "pending" := by
    rw [readProp_newTask]
    simp
  have hT : (addTask iso s uuid taskData now).2.tasks
      = s.tasks ++ [newTask iso uuid taskData now] := rfl
  refine ⟨?_, ?_, ?_⟩
  · intro t ht
    rw [hT] at ht
    rcases List.mem_append.mp ht with h | h
    · exact hl.1 t h
    · have : t = newTask iso uuid taskData now := by simpa using h
      rw [this]
      exact ⟨uuid, hid⟩
  · unfold taskIds
    rw [hT, List.map_append, List.nodup_append]
    refine ⟨hl.2.1, by simp, ?_⟩
    intro a ha hb
    have hb' : a = Val.str uuid := by simpa [hid] using hb
    obtain ⟨t, ht, hta⟩ := List.mem_map.mp ha
    exact hfresh t ht (hta.trans hb')
  · intro key
    show (getProp s.activeTimers key).isSome = true ↔ _
    rw [hl.2.2 key]
    constructor
    · rintro ⟨t, ht, hidt, hstt⟩
      exact ⟨t, by rw [hT]; exact List.mem_append_left _ ht, hidt, hstt⟩
    · rintro ⟨t, ht, hidt, hstt⟩
      rw [hT] at ht
      rcases List.mem_append.mp ht with h | h
      · exact ⟨t, h, hidt, hstt⟩
      · have : t = newTask iso uuid taskData now := by simpa using h
        rw [this, hst] at hstt
        exact absurd hstt (by decide)

theorem linked_of_reachableFresh (iso : Int → String) (s : State)
    (h : ReachableFresh iso s) : Linked s := by
  induction h with
  | init =>
    refine ⟨?_, ?_, ?_⟩
    · intro t ht
      cases ht
    · exact List.nodup_nil
    · intro key
      constructor
      · intro h
        cases h
      · rintro ⟨t, ht, _⟩
        cases ht
  | addTask s uuid taskData now _ hnoid hfresh ih =>
    exact linked_addTask iso s uuid taskData now ih hnoid hfresh
  | startTimer s taskId now _ ih => exact linked_startTimer iso s taskId now ih
  | tick s handle now _ ih => exact linked_tick s handle now ih
  | stopTimer s taskId now _ ih => exact linked_stopTimer s taskId now ih
  | completeTask s taskId now _ ih => exact linked_completeTask iso s taskId now ih
  | deleteTask s taskId now _ ih => exact linked_deleteTask s taskId now ih

/-- C26: handles and status are linked. In every state reachable from the
empty store by `addTask` (inputs without an `id` field, generated ids not yet
in the store), `startTimer`, `stopTimer`, `completeTask` and `deleteTask`
(and ticks), `activeTimers` has a handle under an id exactly when the store
holds a task with that id whose status is `in-progress`; so a task of the
store that is not `in-progress` has no handle, and neither has an id that no
task carries. -/
theorem handle_iff_inProgress (iso : Int → String) (s : State)
    (hs : ReachableFresh iso s) :
    (∀ key : String, (getProp s.activeTimers key).isSome = true ↔
      ∃ t ∈ s.tasks, readProp t "id" = Val.str key ∧
        readProp t "status" = Val.str "in-progress") ∧
    (∀ t ∈ s.tasks, readProp t "status" ≠ Val.str "in-progress" →
      getProp s.activeTimers (toKey (readProp t "id")) = none) ∧
    (∀ key : String, (∀ t ∈ s.tasks, readProp t "id" ≠ Val.str key) →
      getProp s.activeTimers key = none) := by
  obtain ⟨h1, h2, h3⟩ := linked_of_reachableFresh iso s hs
  refine ⟨h3, ?_, ?_⟩
  · intro t ht hst
    obtain ⟨u, hu⟩ := h1 t ht
    rw [hu]
    show getProp s.activeTimers u = none
    cases hget : getProp s.activeTimers u with
    | none => rfl
    | some timer =>
      have hsome : (getProp s.activeTimers u).isSome = true := by rw [hget]; rfl
      obtain ⟨t', ht', hid', hst'⟩ := (h3 u).mp hsome
      have heq : t' = t := by
        apply List.inj_on_of_nodup_map h2 ht' ht
        show readProp t' "id" = readProp t "id"
        rw [hid', hu]
      rw [heq] at hst'
      exact absurd hst' hst
  · intro key hnone
    cases hget : getProp s.activeTimers key with
    | none => rfl
    | some timer =>
      have hsome : (getProp s.activeTimers key).isSome = true := by rw [hget]; rfl
      obtain ⟨t', ht', hid', _⟩ := (h3 key).mp hsome
      exact absurd hid' (hnone t' ht')

/-- C26 on the store after `addTask` and `startTimer ("a")`, at the id "a". -/
theorem handle_iff_inProgress_witness :
    (getProp demoRunning.activeTimers "a").isSome = true ∧
    ((getProp demoRunning.activeTimers "a").isSome = true ↔
      ∃ t ∈ demoRunning.tasks, readProp t "id" = Val.str "a" ∧
        readProp t "status" = Val.str "in-progress") :=
  ⟨by decide,
   (handle_iff_inProgress isoDemo demoRunning
    (ReachableFresh.startTimer
      (step isoDemo State.init
        (Op.addTask "a" [("title", Val.str "Write report"), ("assignedTo", Val.str "u1")]) 0)
      "a" 0
      (ReachableFresh.addTask State.init "a"
        [("title", Val.str "Write report"), ("assignedTo", Val.str "u1")] 0
        ReachableFresh.init (by decide) (fun t ht => by cases ht)))).1 "a"⟩

/-- C27: `addTask` does not protect the generated id. When the input carries
an `id` field the created task has the input's id; when it carries none the
task has the generated id. Adding to the one-task store an input that carries
the id "a" gives a store in which two tasks share the id "a". When inputs
carry no `id` field and generated ids are not yet in the store, the ids of
the store stay pairwise distinct. -/
theorem addTask_id_not_protected :
    (∀ (iso : Int → String) (s : State) (uuid : String) (taskData : Obj) (now : Int)
      (v : Val), getProp taskData "id" = some v →
      readProp (addTask iso s uuid taskData now).1 "id" = v) ∧
    (∀ (iso : Int → String) (s : State) (uuid : String) (taskData : Obj) (now : Int),
      getProp taskData "id" = none →
      readProp (addTask iso s uuid taskData now).1 "id" = Val.str uuid) ∧
    (taskIds demoStore = [Val.str "a"] ∧
      demoTwins = (addTask isoDemo demoStore "b"
        [("id", Val.str "a"), ("title", Val.str "Review report")] 500).2 ∧
      taskIds demoTwins = [Val.str "a", Val.str "a"] ∧
      ¬ (taskIds demoTwins).Nodup) ∧
    (∀ (iso : Int → String) (s : State) (uuid : String) (taskData : Obj) (now : Int),
      getProp taskData "id" = none → (∀ t ∈ s.tasks, readProp t "id" ≠ Val.str uuid) →
      (taskIds s).Nodup → (taskIds (addTask iso s uuid taskData now).2).Nodup) ∧
    (∀ (iso : Int → String) (s : State), ReachableFresh iso s → (taskIds s).Nodup) := by
  refine ⟨?_, ?_, ⟨by decide, by decide, by decide, by decide⟩, ?_, ?_⟩
  · intro iso s uuid taskData now v hv
    show readProp (newTask iso uuid taskData now) "id" = v
    rw [readProp_id_newTask, hv]
    rfl
  · intro iso s uuid taskData now hnone
    show readProp (newTask iso uuid taskData now) "id" = Val.str uuid
    rw [readProp_id_newTask, hnone]
    rfl
  · intro iso s uuid taskData now hnone hfresh hnd
    have hid : readProp (newTask iso uuid taskData now) "id" = Val.str uuid := by
      rw [readProp_id_newTask, hnone]
      rfl
    have hT : (addTask iso s uuid taskData now).2.tasks
        = s.tasks ++ [newTask iso uuid taskData now] := rfl
    unfold taskIds at hnd ⊢
    rw [hT, List.map_append, List.nodup_append]
    refine ⟨hnd, by simp, ?_⟩
    intro a ha hb
    have hb' : a = Val.str uuid := by simpa [hid] using hb
    obtain ⟨t, ht, hta⟩ := List.mem_map.mp ha
    exact hfresh t ht (hta.trans hb')
  · intro iso s hs
    exact (linked_of_reachableFresh iso s hs).2.1

/-! ## Loading the store -/

/-- C22 (as stated, refuted): with the malformed text `[oops` in the backing
store the load effect does not yield the empty collection: `JSON.parse`
throws and nothing catches the error. -/
theorem load_malformed_throws :
    jsonDemo "[oops" = Parsed.syntaxError ∧
    loadTasks jsonDemo (some "[oops") = Loaded.threw ∧
    loadTasks jsonDemo (some "[oops") ≠ Loaded.ok [] := by
  decide

/-- C22 (amended): the load effect yields the empty collection, without an
error, when the backing store holds no value or the empty text; a text that
encodes a task list yields that list; a text that `JSON.parse` rejects makes
the effect throw, and a text that encodes another value puts that value in
place of the task list. -/
theorem loadTasks_spec (jsonParse : String → Parsed) :
    loadTasks jsonParse none = Loaded.ok [] ∧
    loadTasks jsonParse (some "") = Loaded.ok [] ∧
    (∀ text l, text ≠ "" → jsonParse text = Parsed.taskList l →
      loadTasks jsonParse (some text) = Loaded.ok l) ∧
    (∀ text, text ≠ "" → jsonParse text = Parsed.syntaxError →
      loadTasks jsonParse (some text) = Loaded.threw) ∧
    (∀ text, text ≠ "" → jsonParse text = Parsed.other →
      loadTasks jsonParse (some text) = Loaded.notAList) := by
  refine ⟨rfl, rfl, ?_, ?_, ?_⟩
  · intro text l hne hp
    simp [loadTasks, hne, hp]
  · intro text hne hp
    simp [loadTasks, hne, hp]
  · intro text hne hp
    simp [loadTasks, hne, hp]

/-! ## The user list -/

theorem find_hasEmail_some (users : List Obj) (email : Val)
    (h : ∃ u ∈ users, readProp u "email" = email) :
    ∃ u, users.find? (hasEmail email) = some u := by
  obtain ⟨u, hu, he⟩ := h
  cases hf : users.find? (hasEmail email) with
  | some v => exact ⟨v, rfl⟩
  | none =>
    have := List.find?_eq_none.mp hf u hu
    simp [hasEmail, he] at this

theorem find_hasEmail_none (users : List Obj) (email : Val)
    (h : ∀ u ∈ users, readProp u "email" ≠ email) :
    users.find? (hasEmail email) = none := by
  rw [List.find?_eq_none]
  intro u hu
  simpa [hasEmail] using h u hu

theorem find_hasEmail_mem (users : List Obj) (email : Val) (u : Obj)
    (h : users.find? (hasEmail email) = some u) :
    ∃ v ∈ users, readProp v "email" = email := by
  refine ⟨u, List.mem_of_find?_eq_some h, ?_⟩
  have := List.find?_some h
  simpa [hasEmail] using this

theorem emails_append_nodup (users : List Obj) (r : Obj)
    (hr : ∀ u ∈ users, readProp u "email" ≠ readProp r "email")
    (hnd : (emails users).Nodup) : (emails (users ++ [r])).Nodup := by
  unfold emails at hnd ⊢
  rw [List.map_append, List.nodup_append]
  refine ⟨hnd, by simp, ?_⟩
  intro a ha hb
  have hb' : a = readProp r "email" := by simpa using hb
  obtain ⟨u, hu, hua⟩ := List.mem_map.mp ha
  exact hr u hu (hua.trans hb')

theorem email_of_signup_record (iso : Int → String) (userData : Obj) (now : Int) :
    readProp (setProp (spread [("id", Val.str (toString now))] userData)
      "createdAt" (Val.str (iso now))) "email" = readProp userData "email" := by
  rw [readProp_setProp, if_neg (by decide), readProp_spread]
  unfold readProp
  cases getProp userData "email" <;> simp [getProp]

theorem email_of_employee_record (iso : Int → String) (newEmployee : Obj) (adminId : Val)
    (now : Int) :
    readProp (setProp (setProp (spread [("id", Val.str (toString now))] newEmployee)
      "createdAt" (Val.str (iso now))) "createdBy" adminId) "email"
      = readProp newEmployee "email" := by
  rw [readProp_setProp, if_neg (by decide)]
  exact email_of_signup_record iso newEmployee now

/-- C24: duplicate users are rejected before mutation. When a stored user has
the email of the new record, `signup` leaves the stored list unchanged and
returns `success: false`, and `handleAddEmployee` leaves it unchanged and
shows its alert. When no stored user has that email, each appends exactly
one record, which carries that email, and `signup` returns `success: true`.
Both keep the emails of the list pairwise distinct. -/
theorem duplicate_users_rejected (iso : Int → String) (users : List Obj) (record : Obj)
    (adminId : Val) (now : Int) :
    ((∃ u ∈ users, readProp u "email" = readProp record "email") →
      (signup iso users record now).1 = users ∧
      (signup iso users record now).2.success = false ∧
      (handleAddEmployee iso users record adminId now).1 = users ∧
      (handleAddEmployee iso users record adminId now).2 = true) ∧
    ((∀ u ∈ users, readProp u "email" ≠ readProp record "email") →
      (∃ r, (signup iso users record now).1 = users ++ [r] ∧
        readProp r "email" = readProp record "email") ∧
      (signup iso users record now).2.success = true ∧
      (∃ r, (handleAddEmployee iso users record adminId now).1 = users ++ [r] ∧
        readProp r "email" = readProp record "email") ∧
      (handleAddEmployee iso users record adminId now).2 = false) ∧
    ((emails users).Nodup →
      (emails (signup iso users record now).1).Nodup ∧
      (emails (handleAddEmployee iso users record adminId now).1).Nodup) := by
  refine ⟨?_, ?_, ?_⟩
  · intro hdup
    obtain ⟨u, hu⟩ := find_hasEmail_some users _ hdup
    simp [signup, handleAddEmployee, hu]
  · intro hnew
    have hf := find_hasEmail_none users _ hnew
    refine ⟨⟨_, by simp [signup, hf], email_of_signup_record iso record now⟩,
      by simp [signup, hf],
      ⟨_, by simp [handleAddEmployee, hf], email_of_employee_record iso record adminId now⟩,
      by simp [handleAddEmployee, hf]⟩
  · intro hnd
    cases hf : users.find? (hasEmail (readProp record "email")) with
    | some u =>
      simp only [signup, handleAddEmployee, hf]
      exact ⟨hnd, hnd⟩
    | none =>
      have hnew : ∀ u ∈ users, readProp u "email" ≠ readProp record "email" := by
        intro u hu
        have := List.find?_eq_none.mp hf u hu
        simpa [hasEmail] using this
      simp only [signup, handleAddEmployee, hf]
      constructor
      · apply emails_append_nodup users _ _ hnd
        rw [email_of_signup_record]
        exact hnew
      · apply emails_append_nodup users _ _ hnd
        rw [email_of_employee_record]
        exact hnew

/-- C24 on a stored list with one employee: a record with her email is
rejected, a record with another email is appended. -/
theorem duplicate_users_rejected_witness :
    (signup isoDemo demoUsers
      [("email", Val.str "ann@example.org"), ("password", Val.str "x")] 5).1 = demoUsers ∧
    (signup isoDemo demoUsers
      [("email", Val.str "ann@example.org"), ("password", Val.str "x")] 5).2.success = false ∧
    (handleAddEmployee isoDemo demoUsers
      [("email", Val.str "ann@example.org"), ("password", Val.str "x")]
      (Val.str "admin") 5).1 = demoUsers ∧
    (handleAddEmployee isoDemo demoUsers
      [("email", Val.str "ann@example.org"), ("password", Val.str "x")]
      (Val.str "admin") 5).2 = true :=
  (duplicate_users_rejected isoDemo demoUsers
    [("email", Val.str "ann@example.org"), ("password", Val.str "x")] (Val.str "admin") 5).1
    ⟨demoUsers.headD [], by decide, by decide⟩

end TaskScheduler
